import Mathlib

/-!
# gophoto: a shallow embedding of the libgphoto2 binding layer

The Go sources `gophoto.go`, `camera.go` and `camera_file.go` are thin sequences of calls into
libgphoto2.  The embedding keeps the control flow of each Go function and makes two things
explicit:

* the mutable receiver (`*Camera`, `*CameraFile`, the handle wrappers) is passed in and returned;
* every call into the native library is answered by a record supplied by the caller of the model
  (the status it returns, the data it writes back) and, for the functions whose properties concern
  which native calls are made, it is appended to a trace of `NativeCall`s.

Conventions: a Go `string` is its byte sequence; a C string made by `C.CString` is the part of
it before the first NUL byte; a C pointer is `Option`, `none` being `nil`;
`C.int` statuses are `Int` (they are only compared, never computed with); Go `int` is 64 bit.
-/

namespace Gophoto

/-! ## Data model -/

/-- A Go string: an immutable sequence of bytes. -/
abbrev GoString := List UInt8

/-- The bytes of an ASCII literal. -/
def str (s : String) : GoString := s.toList.map (fun c => c.toNat.toUInt8)

/-- `C.CString(s)` as a native callee reads it: the copy is NUL-terminated, so its content is the
bytes of `s` before the first NUL byte. -/
def CString (s : GoString) : GoString := s.takeWhile (fun b => b != 0)

/-- The path separator, `"/"`. -/
def sep : UInt8 := 47

/-- A non-nil native address. -/
abbrev Ptr := Nat

/-- The status `GP_OK` of libgphoto2. -/
def GP_OK : Int := 0

/-- The calls into the native library that the model traces.  A C string argument is recorded by
the content the callee reads, see `CString`. -/
inductive NativeCall where
  | gp_camera_new
  | gp_camera_unref (p : Ptr)
  | gp_context_unref (p : Ptr)
  | c_free (content : GoString)
  | gp_file_free (p : Ptr)
  | gp_abilities_list_new
  | gp_abilities_list_free
  | gp_abilities_list_load
  | gp_abilities_list_lookup_model (model : GoString)
  | gp_abilities_list_get_abilities (idx : Int)
  | gp_camera_set_abilities
  | gp_port_info_list_new
  | gp_port_info_list_free
  | gp_port_info_list_load
  | gp_port_info_list_lookup_path (port : GoString)
  | gp_port_info_list_get_info (idx : Int)
  | gp_camera_set_port_info
  | gp_file_new_from_handler
  | gp_camera_file_get (folder name : Option GoString)
  | gp_camera_file_delete (folder name : Option GoString)
  deriving DecidableEq

/-- The struct `Error` of gophoto.go. -/
structure Error where
  code : Int
  message : String
  portError : Bool
  deriving DecidableEq

/-- The values of Go's `error` interface that the package returns: a `*Error`, `io.EOF`, or the
result of `errors.New`. -/
inductive GoError where
  | lib (e : Error)
  | eof
  | text (msg : String)
  deriving DecidableEq

/-- The struct `cameraWrapper` of camera.go. -/
structure cameraWrapper where
  pointer : Option Ptr
  deriving DecidableEq

/-- The struct `contextWrapper` of gophoto.go. -/
structure contextWrapper where
  pointer : Option Ptr
  deriving DecidableEq

/-- The struct `cstringWrapper` of gophoto.go; a non-nil pointer is represented by the content of
the C string it refers to. -/
structure cstringWrapper where
  pointer : Option GoString
  deriving DecidableEq

/-- The struct `fileWrapper` of camera_file.go. -/
structure fileWrapper where
  pointer : Option Ptr
  deriving DecidableEq

/-! ## Releasing native handles -/

/-- `cameraWrapper.free` (camera.go): the wrapper afterwards and the native calls made. -/
def cameraWrapper.free (self : cameraWrapper) : cameraWrapper × List NativeCall :=
  match self.pointer with
  | some p => ({ self with pointer := none }, [NativeCall.gp_camera_unref p])
  | none => (self, [])

/-- `contextWrapper.free` (gophoto.go). -/
def contextWrapper.free (self : contextWrapper) : contextWrapper × List NativeCall :=
  match self.pointer with
  | some p => ({ self with pointer := none }, [NativeCall.gp_context_unref p])
  | none => (self, [])

/-- `cstringWrapper.free` (gophoto.go). -/
def cstringWrapper.free (self : cstringWrapper) : cstringWrapper × List NativeCall :=
  match self.pointer with
  | some p => ({ self with pointer := none }, [NativeCall.c_free p])
  | none => (self, [])

/-- `fileWrapper.free` (camera_file.go). -/
def fileWrapper.free (self : fileWrapper) : fileWrapper × List NativeCall :=
  match self.pointer with
  | some p => ({ self with pointer := none }, [NativeCall.gp_file_free p])
  | none => (self, [])

/-- Calling a `free` method `k` times in a row: the final wrapper and all native calls made. -/
def freeTimes {W : Type} (free : W → W × List NativeCall) : Nat → W → W × List NativeCall
  | 0, w => (w, [])
  | k + 1, w =>
    let r := free w
    let r2 := freeTimes free k r.1
    (r2.1, r.2 ++ r2.2)

/-- `newCstring` (gophoto.go): the wrapper of `C.CString(str)`. -/
def newCstring (s : GoString) : cstringWrapper :=
  { pointer := some (CString s) }

/-- `newFile` (camera_file.go): a wrapper whose pointer is still nil. -/
def newFile : fileWrapper :=
  { pointer := none }

/-! ## Camera session -/

/-- The struct `Camera` of camera.go.  `context` is the wrapper every camera of one `ListCameras`
call shares; it is never nil for a camera made by `ListCameras`. -/
structure Camera where
  Model : GoString
  Port : GoString
  context : contextWrapper
  camera : Option cameraWrapper
  deriving DecidableEq

/-- What the native library answers during one `getCamera` call. -/
structure SessionNative where
  /-- the pointer `gp_camera_new` stores (its status is ignored by the Go code) -/
  camera_new : Option Ptr
  abilities_list_new : Int
  abilities_list_load : Int
  abilities_list_lookup_model : GoString → Int
  abilities_list_get_abilities : Int → Int
  camera_set_abilities : Int
  port_info_list_new : Int
  port_info_list_load : Int
  port_info_list_lookup_path : GoString → Int
  port_info_list_get_info : Int → Int
  camera_set_port_info : Int

/-- `newCamera` (camera.go). -/
def newCamera (nat : SessionNative) : cameraWrapper :=
  { pointer := nat.camera_new }

/-- The outcome of `getCamera`: the two results, the receiver afterwards, the native calls. -/
structure GetCameraResult where
  value : Option cameraWrapper
  err : Option GoError
  self : Camera
  calls : List NativeCall
  deriving DecidableEq

/-- `Camera.getCamera` (camera.go).  The deferred `gp_abilities_list_free` and
`gp_port_info_list_free` run when the function returns, last registered first. -/
def Camera.getCamera (nat : SessionNative) (self : Camera) : GetCameraResult :=
  match self.camera with
  | some cam => { value := some cam, err := none, self := self, calls := [] }
  | none =>
    let self := { self with camera := some (newCamera nat) }
    let fail (code : Int) (port : Bool) (calls : List NativeCall) : GetCameraResult :=
      { value := none, err := some (GoError.lib { code := code, message := "", portError := port }),
        self := self, calls := calls }
    let t := [NativeCall.gp_camera_new, NativeCall.gp_abilities_list_new]
    let result := nat.abilities_list_new
    if result < GP_OK then fail result false t else
    let t := t ++ [NativeCall.gp_abilities_list_load]
    let result := nat.abilities_list_load
    if result ≠ GP_OK then fail result false (t ++ [NativeCall.gp_abilities_list_free]) else
    let t := t ++ [NativeCall.gp_abilities_list_lookup_model (CString self.Model)]
    let result := nat.abilities_list_lookup_model (CString self.Model)
    if result < GP_OK then fail result false (t ++ [NativeCall.gp_abilities_list_free]) else
    let abilitiesIdx := result
    let t := t ++ [NativeCall.gp_abilities_list_get_abilities abilitiesIdx]
    let result := nat.abilities_list_get_abilities abilitiesIdx
    if result < GP_OK then fail result false (t ++ [NativeCall.gp_abilities_list_free]) else
    let t := t ++ [NativeCall.gp_camera_set_abilities]
    let result := nat.camera_set_abilities
    if result < GP_OK then fail result false (t ++ [NativeCall.gp_abilities_list_free]) else
    let t := t ++ [NativeCall.gp_port_info_list_new]
    let result := nat.port_info_list_new
    if result ≠ GP_OK then fail result true (t ++ [NativeCall.gp_abilities_list_free]) else
    let t := t ++ [NativeCall.gp_port_info_list_load]
    let result := nat.port_info_list_load
    if result < GP_OK then
      fail result true (t ++ [NativeCall.gp_port_info_list_free, NativeCall.gp_abilities_list_free]) else
    let t := t ++ [NativeCall.gp_port_info_list_lookup_path (CString self.Port)]
    let result := nat.port_info_list_lookup_path (CString self.Port)
    if result < GP_OK then
      fail result true (t ++ [NativeCall.gp_port_info_list_free, NativeCall.gp_abilities_list_free]) else
    let portIdx := result
    let t := t ++ [NativeCall.gp_port_info_list_get_info portIdx]
    let result := nat.port_info_list_get_info portIdx
    if result < GP_OK then
      fail result true (t ++ [NativeCall.gp_port_info_list_free, NativeCall.gp_abilities_list_free]) else
    let t := t ++ [NativeCall.gp_camera_set_port_info]
    let result := nat.camera_set_port_info
    if result < GP_OK then
      fail result true (t ++ [NativeCall.gp_port_info_list_free, NativeCall.gp_abilities_list_free]) else
    { value := self.camera, err := none, self := self,
      calls := t ++ [NativeCall.gp_port_info_list_free, NativeCall.gp_abilities_list_free] }

/-- The native calls of the port-info negotiation. -/
def NativeCall.isPortStep : NativeCall → Bool
  | .gp_port_info_list_new => true
  | .gp_port_info_list_load => true
  | .gp_port_info_list_lookup_path _ => true
  | .gp_port_info_list_get_info _ => true
  | .gp_camera_set_port_info => true
  | _ => false

/-- The native model lookup. -/
def NativeCall.isModelLookup : NativeCall → Bool
  | .gp_abilities_list_lookup_model _ => true
  | _ => false

/-- A native answer set in which every step succeeds. -/
def okSession : SessionNative :=
  { camera_new := some 1, abilities_list_new := 0, abilities_list_load := 0,
    abilities_list_lookup_model := fun _ => 3, abilities_list_get_abilities := fun _ => 0,
    camera_set_abilities := 0, port_info_list_new := 0, port_info_list_load := 0,
    port_info_list_lookup_path := fun _ => 2, port_info_list_get_info := fun _ => 0,
    camera_set_port_info := 0 }

/-- A camera as `ListCameras` makes it: no native camera handle yet. -/
def freshCamera : Camera :=
  { Model := str "Canon EOS 5D", Port := str "usb:001,004", context := { pointer := some 7 },
    camera := none }

/-! ## Streaming file reader -/

/-- The struct `CameraFile` of camera_file.go.  `buffer` is the unread content of the
`bytes.Buffer`. -/
structure CameraFile where
  camera : Option cameraWrapper
  context : contextWrapper
  folder : cstringWrapper
  name : cstringWrapper
  deleteAfter : Bool
  file : Option fileWrapper
  buffer : List UInt8
  bytesRead : Int
  size : Int
  deriving DecidableEq

/-- A callback the native library makes while `gp_camera_file_get` runs: `handle_write` with a
byte span, or `handle_size` with a `uint64` value. -/
inductive Callback where
  | write (data : List UInt8)
  | size (declared : Nat)
  deriving DecidableEq

/-- What the native library answers during one `Read` call. -/
structure FileNative where
  /-- status of `gp_file_new_from_handler` -/
  file_new_from_handler : Int
  /-- the file pointer `gp_file_new_from_handler` stores -/
  file_pointer : Option Ptr
  /-- the callbacks `gp_camera_file_get` drives before it returns, in order -/
  callbacks : List Callback
  /-- status of `gp_camera_file_get` -/
  camera_file_get : Int
  /-- status of `gp_camera_file_delete` -/
  camera_file_delete : Int
  deriving DecidableEq

/-- The conversion `int(x)` of a `uint64` on a 64-bit platform. -/
def uint64ToInt (x : Nat) : Int :=
  if x % 2 ^ 64 < 2 ^ 63 then (x % 2 ^ 64 : Nat) else ((x % 2 ^ 64 : Nat) : Int) - 2 ^ 64

/-- `CameraFile.Write` (camera_file.go): `bytes.Buffer.Write` appends and never fails. -/
def CameraFile.Write (self : CameraFile) (p : List UInt8) : CameraFile :=
  { self with buffer := self.buffer ++ p }

/-- `handle_write` (camera_file.go): hands the span to `Write`; it always reports `GP_OK`. -/
def handle_write (file : CameraFile) (data : List UInt8) : CameraFile :=
  file.Write data

/-- `handle_size` (camera_file.go): stores `int(*size)`; it always reports `GP_OK`. -/
def handle_size (file : CameraFile) (size : Nat) : CameraFile :=
  { file with size := uint64ToInt size }

/-- The effect of one callback on the reader. -/
def Callback.run (file : CameraFile) : Callback → CameraFile
  | .write data => handle_write file data
  | .size n => handle_size file n

/-- The outcome of `setupHandler`: the error returned, the receiver afterwards, the calls. -/
structure SetupResult where
  err : Option GoError
  self : CameraFile
  calls : List NativeCall
  deriving DecidableEq

/-- `CameraFile.setupHandler` (camera_file.go). -/
def CameraFile.setupHandler (nat : FileNative) (self : CameraFile) : SetupResult :=
  if self.file ≠ none then
    { err := some (GoError.text "Handler already set up"), self := self, calls := [] }
  else
    let self := { self with file := some newFile }
    let self := { self with file := some { pointer := nat.file_pointer } }
    let result := nat.file_new_from_handler
    if result ≠ GP_OK then
      { err := some (GoError.lib { code := result,
                                   message := "Unable to create new file from handler",
                                   portError := false }),
        self := self, calls := [NativeCall.gp_file_new_from_handler] }
    else
      let self := nat.callbacks.foldl Callback.run self
      let result := nat.camera_file_get
      let calls := [NativeCall.gp_file_new_from_handler,
                    NativeCall.gp_camera_file_get self.folder.pointer self.name.pointer]
      if result ≠ GP_OK then
        { err := some (GoError.lib { code := result, message := "Unable to get file",
                                     portError := false }),
          self := self, calls := calls }
      else
        { err := none, self := self, calls := calls }

/-- `bytes.Buffer.Read` of the Go standard library for a destination of length `plen`: the bytes
copied, the error, and the unread content left.  An empty buffer gives `io.EOF`, unless the
destination is empty too. -/
def bufferRead (buffer : List UInt8) (plen : Nat) : List UInt8 × Option GoError × List UInt8 :=
  if buffer = [] then
    if plen = 0 then ([], none, []) else ([], some GoError.eof, [])
  else (buffer.take plen, none, buffer.drop plen)

/-- The outcome of `Read`: the bytes copied into `p` (`n` is their number), the error, the
receiver afterwards, the native calls. -/
structure ReadResult where
  data : List UInt8
  err : Option GoError
  self : CameraFile
  calls : List NativeCall
  deriving DecidableEq

/-- The result `n` of `Read`. -/
def ReadResult.n (r : ReadResult) : Int := r.data.length

/-- The first statement of `Read`: `setupHandler` runs when the reader has no file handle yet. -/
def CameraFile.readSetup (nat : FileNative) (self : CameraFile) : SetupResult :=
  if self.file = none then self.setupHandler nat
  else { err := none, self := self, calls := [] }

/-- `CameraFile.Read` (camera_file.go) for a destination `p` of length `plen`. -/
def CameraFile.Read (nat : FileNative) (self : CameraFile) (plen : Nat) : ReadResult :=
  let setup := self.readSetup nat
  match setup.err with
  | some err => { data := [], err := some err, self := setup.self, calls := setup.calls }
  | none =>
    let self := setup.self
    let (read, err, rest) := bufferRead self.buffer plen
    let self := { self with buffer := rest, bytesRead := self.bytesRead + read.length }
    if err = some GoError.eof then
      if self.size > self.bytesRead then
        { data := read, err := none, self := self, calls := setup.calls }
      else
        if self.deleteAfter then
          let result := nat.camera_file_delete
          let calls := setup.calls ++ [NativeCall.gp_camera_file_delete self.folder.pointer self.name.pointer]
          if result ≠ GP_OK then
            { data := read,
              err := some (GoError.lib { code := result,
                                         message := "Unable to delete file after downloading",
                                         portError := false }),
              self := self, calls := calls }
          else { data := read, err := err, self := self, calls := calls }
        else { data := read, err := err, self := self, calls := setup.calls }
    else { data := read, err := err, self := self, calls := setup.calls }

/-- A sequence of `Read` calls on one reader, each with its own native answers and destination
length: the results in order. -/
def readAll : CameraFile → List (FileNative × Nat) → List ReadResult
  | _, [] => []
  | self, (nat, plen) :: rest =>
    let r := self.Read nat plen
    r :: readAll r.self rest

/-- A native get-file call. -/
def NativeCall.isFileGet : NativeCall → Bool
  | .gp_camera_file_get _ _ => true
  | _ => false

/-- A native delete call. -/
def NativeCall.isFileDelete : NativeCall → Bool
  | .gp_camera_file_delete _ _ => true
  | _ => false

/-- The number of native delete calls in a trace. -/
def deleteCount (calls : List NativeCall) : Nat :=
  calls.countP NativeCall.isFileDelete

/-- A `Read` finds the reader exhausted: past the setup the internal buffer is empty (and the
destination is not, so that the buffer read reports `io.EOF`) and `bytesRead` has reached
`size`. -/
def findsExhausted (nat : FileNative) (self : CameraFile) (plen : Nat) : Bool :=
  let setup := self.readSetup nat
  setup.err = none && setup.self.buffer = [] && plen ≠ 0 && setup.self.size ≤ setup.self.bytesRead

/-- All native calls of a sequence of `Read` results, in order. -/
def allCalls : List ReadResult → List NativeCall
  | [] => []
  | r :: rest => r.calls ++ allCalls rest

/-- For each `Read` of a sequence, whether it finds the reader exhausted. -/
def exhaustedAt : CameraFile → List (FileNative × Nat) → List Bool
  | _, [] => []
  | self, (nat, plen) :: rest =>
    findsExhausted nat self plen :: exhaustedAt (self.Read nat plen).self rest

/-- The bytes the write callbacks of a transfer deliver in total. -/
def Callback.written : List Callback → Nat
  | [] => 0
  | .write data :: rest => data.length + Callback.written rest
  | .size _ :: rest => Callback.written rest

/-- The size a transfer declares: the value of its last size callback, `dflt` without one. -/
def Callback.declared (dflt : Int) : List Callback → Int
  | [] => dflt
  | .write _ :: rest => Callback.declared dflt rest
  | .size n :: rest => Callback.declared (uint64ToInt n) rest

/-- A reader as `GetFile` and `CaptureImage` construct it: only the camera, the context, the
folder, the name and the flag are set. -/
def CameraFile.fresh (self : CameraFile) : Prop :=
  self.file = none ∧ self.buffer = [] ∧ self.bytesRead = 0 ∧ self.size = 0

instance (self : CameraFile) : Decidable self.fresh := by
  unfold CameraFile.fresh; infer_instance

/-- A reader bound to `/DCIM/a.jpg`, as `CaptureImage` (flag set) or `GetFile` would make it. -/
def sampleReader (deleteAfter : Bool) : CameraFile :=
  { camera := some { pointer := some 1 }, context := { pointer := some 7 },
    folder := newCstring (str "/DCIM/"), name := newCstring (str "a.jpg"),
    deleteAfter := deleteAfter, file := none, buffer := [], bytesRead := 0, size := 0 }

/-- A successful transfer that delivers the given callbacks; deletion answers `del`. -/
def transfer (callbacks : List Callback) (del : Int) : FileNative :=
  { file_new_from_handler := 0, file_pointer := some 9, callbacks := callbacks,
    camera_file_get := 0, camera_file_delete := del }

/-! ## Strings -/

/-- `strings.HasSuffix` of the Go standard library:
`len(s) >= len(suffix) && s[len(s)-len(suffix):] == suffix`. -/
def HasSuffix (s suffix : GoString) : Bool :=
  decide (suffix.length ≤ s.length) && (s.drop (s.length - suffix.length) == suffix)

/-- `strings.Split(s, sep)` of the Go standard library for a one-byte separator `c`: the
substrings between the occurrences of `c`, one more than there are occurrences. -/
def Split : GoString → UInt8 → List GoString
  | [], _ => [[]]
  | b :: rest, c =>
    if b = c then [] :: Split rest c
    else
      match Split rest c with
      | [] => [[b]]
      | part :: parts => (b :: part) :: parts

/-- `strings.Join` of the Go standard library. -/
def Join : List GoString → GoString → GoString
  | [], _ => []
  | [a], _ => a
  | a :: b :: rest, s => a ++ s ++ Join (b :: rest) s

/-! ## Device directory -/

/-- The outcome of `GetFile`: the two results, the receiver afterwards, the native calls. -/
structure GetFileResult where
  value : Option CameraFile
  err : Option GoError
  self : Camera
  calls : List NativeCall
  deriving DecidableEq

/-- `Camera.GetFile` (camera.go). -/
def Camera.GetFile (nat : SessionNative) (self : Camera) (path : GoString) : GetFileResult :=
  let parts := Split path sep
  let name := newCstring (parts.getLastD [])
  let folder := newCstring (Join parts.dropLast [sep] ++ [sep])
  let r := self.getCamera nat
  match r.err with
  | some err => { value := none, err := some err, self := r.self, calls := r.calls }
  | none =>
    let reader : CameraFile :=
      { camera := r.value, context := r.self.context, folder := folder, name := name,
        deleteAfter := false, file := none, buffer := [], bytesRead := 0, size := 0 }
    { value := some reader, err := none, self := r.self, calls := r.calls }

/-- A native `CameraList` after a listing call: for each index the status `gp_list_get_name`
returns there and the name it stores; `gp_list_count` is the number of entries. -/
abbrev CameraList := List (Int × GoString)

/-- What the native library answers during a directory listing. -/
structure ListingNative where
  session : SessionNative
  /-- status of the `gp_list_new` for the folder list -/
  list_new_folders : Int
  /-- status of `gp_camera_folder_list_folders` for the C string of a path, and the list it
  fills -/
  folder_list_folders : GoString → Int × CameraList
  /-- status of the `gp_list_new` for the file list -/
  list_new_files : Int
  /-- status of `gp_camera_folder_list_files` for the C string of a path, and the list it
  fills -/
  folder_list_files : GoString → Int × CameraList

/-- The outcome of `ListDirectory` and `ListDirectoryRecursive`: the two results and the
receiver afterwards.  A nil slice is the empty list. -/
structure ListResult where
  value : List GoString
  err : Option GoError
  self : Camera
  deriving DecidableEq

/-- The two `for` loops of `ListDirectory`: read each name with `gp_list_get_name`, stop at the
first status other than `GP_OK`, store `dir ++ name ++ suffix`. -/
def namesLoop (dir suffix : GoString) : CameraList → List GoString → Except Int (List GoString)
  | [], acc => .ok acc
  | (result, name) :: rest, acc =>
    if result ≠ GP_OK then .error result
    else namesLoop dir suffix rest (acc ++ [dir ++ name ++ suffix])

/-- `Camera.ListDirectory` (camera.go). -/
def Camera.ListDirectory (nat : ListingNative) (self : Camera) (dir : GoString) : ListResult :=
  let dir := if !HasSuffix dir [sep] then dir ++ [sep] else dir
  let r := self.getCamera nat.session
  match r.err with
  | some err => { value := [], err := some err, self := r.self }
  | none =>
    let self := r.self
    let fail (code : Int) : ListResult :=
      { value := [], err := some (GoError.lib { code := code, message := "", portError := false }),
        self := self }
    let result := nat.list_new_folders
    if result < GP_OK then fail result else
    let (result, folderList) := nat.folder_list_folders (CString dir)
    if result < GP_OK then fail result else
    match namesLoop dir [sep] folderList [] with
    | .error result => fail result
    | .ok folders =>
      let result := nat.list_new_files
      if result < GP_OK then fail result else
      let (result, fileList) := nat.folder_list_files (CString dir)
      if result < GP_OK then fail result else
      match namesLoop dir [] fileList [] with
      | .error result => fail result
      | .ok files => { value := folders ++ files, err := none, self := self }

/-- The `for` loop of `ListDirectoryRecursive`, given the function `recurse` that stands for the
recursive call; `none` when a recursive call does not return. -/
def recursiveLoop (recurse : Camera → GoString → Option ListResult) :
    List GoString → Camera → List GoString → Option ListResult
  | [], self, result => some { value := result, err := none, self := self }
  | item :: rest, self, result =>
    if HasSuffix item [sep] then
      match recurse self item with
      | none => none
      | some r =>
        match r.err with
        | some err => some { value := [], err := some err, self := r.self }
        | none => recursiveLoop recurse rest r.self (result ++ r.value)
    else recursiveLoop recurse rest self (result ++ [item])

/-- `Camera.ListDirectoryRecursive` (camera.go), with a bound on the depth of nested calls;
`none` when the bound is reached before the traversal returns. -/
def Camera.ListDirectoryRecursive (nat : ListingNative) :
    Nat → Camera → GoString → Option ListResult
  | 0, _, _ => none
  | fuel + 1, self, dir =>
    let r := self.ListDirectory nat dir
    match r.err with
    | some err => some { value := [], err := some err, self := r.self }
    | none => recursiveLoop (Camera.ListDirectoryRecursive nat fuel) r.value r.self []

/-- The directory `dir` normalised as `ListDirectory` does: it ends with the separator. -/
def normalize (dir : GoString) : GoString :=
  if HasSuffix dir [sep] then dir else dir ++ [sep]

mutual
/-- A folder of the device: its sub-folders and the names of its files. -/
inductive Folder where
  | mk (folders : Subfolders) (files : List GoString)
/-- The named sub-folders of a folder, in the order of the native listing. -/
inductive Subfolders where
  | nil
  | cons (name : GoString) (content : Folder) (rest : Subfolders)
end

/-- The names of the sub-folders, in order. -/
def Subfolders.names : Subfolders → List GoString
  | .nil => []
  | .cons name _ rest => name :: rest.names

mutual
/-- The levels of nesting below a folder. -/
def Folder.height : Folder → Nat
  | .mk folders _ => folders.height
/-- The levels of nesting of a list of sub-folders. -/
def Subfolders.height : Subfolders → Nat
  | .nil => 0
  | .cons _ content rest => max (content.height + 1) rest.height
end

mutual
/-- Manual recursion over the listing of the folder at the normalised path `d`: each folder entry
is replaced in place by the expansion of that folder, each file entry is kept. -/
def Folder.expand : Folder → GoString → List GoString
  | .mk folders files, d => folders.expand d ++ files.map (fun g => d ++ g)
/-- The expansions of the sub-folders of the folder at `d`, in order. -/
def Subfolders.expand : Subfolders → GoString → List GoString
  | .nil, _ => []
  | .cons name content rest, d => content.expand (d ++ name ++ [sep]) ++ rest.expand d
end

/-- The native list of names in which every `gp_list_get_name` succeeds. -/
def okList (names : List GoString) : CameraList :=
  names.map (fun name => (GP_OK, name))

mutual
/-- The native listings succeed and agree with the folder at the normalised path `d` and with
every folder nested in it. -/
def Folder.served (nat : ListingNative) : Folder → GoString → Prop
  | .mk folders files, d =>
    GP_OK ≤ (nat.folder_list_folders (CString d)).1 ∧
    (nat.folder_list_folders (CString d)).2 = okList folders.names ∧
    GP_OK ≤ (nat.folder_list_files (CString d)).1 ∧
    (nat.folder_list_files (CString d)).2 = okList files ∧
    folders.served nat d
/-- The same for each sub-folder of the folder at `d`. -/
def Subfolders.served (nat : ListingNative) : Subfolders → GoString → Prop
  | .nil, _ => True
  | .cons name content rest, d => content.served nat (d ++ name ++ [sep]) ∧ rest.served nat d
end

mutual
/-- The names in a folder tree are path components: none contains the separator, no file name is
empty, and in each folder the folder names are distinct and the file names are distinct. -/
def Folder.wellNamed : Folder → Prop
  | .mk folders files =>
    (∀ g ∈ files, g ≠ [] ∧ sep ∉ g) ∧ files.Nodup ∧ folders.names.Nodup ∧ folders.wellNamed
/-- The same for each sub-folder. -/
def Subfolders.wellNamed : Subfolders → Prop
  | .nil => True
  | .cons name content rest => sep ∉ name ∧ content.wellNamed ∧ rest.wellNamed
end

/-! ## Vocabulary of the properties -/

/-- A `free` method releases at most once: it leaves the pointer nil, does nothing at all on a
nil pointer, makes at most one native call, which is the release call, and calling it any number
of times in a row has the effect of calling it once. -/
def ReleasesOnce {W : Type} (isNil : W → Prop) (release : NativeCall → Bool)
    (free : W → W × List NativeCall) : Prop :=
  ∀ w : W,
    isNil (free w).1 ∧
    (isNil w → free w = (w, [])) ∧
    (free w).2.length ≤ 1 ∧
    (∀ c ∈ (free w).2, release c = true) ∧
    free (free w).1 = ((free w).1, []) ∧
    ∀ k : Nat, freeTimes free (k + 1) w = free w

/-- The native steps of the negotiation in `getCamera`, in the order of the code. -/
inductive Step where
  | abilities_list_new
  | abilities_list_load
  | abilities_list_lookup_model
  | abilities_list_get_abilities
  | camera_set_abilities
  | port_info_list_new
  | port_info_list_load
  | port_info_list_lookup_path
  | port_info_list_get_info
  | camera_set_port_info
  deriving DecidableEq

/-- All steps, in order. -/
def Step.all : List Step :=
  [.abilities_list_new, .abilities_list_load, .abilities_list_lookup_model,
   .abilities_list_get_abilities, .camera_set_abilities, .port_info_list_new,
   .port_info_list_load, .port_info_list_lookup_path, .port_info_list_get_info,
   .camera_set_port_info]

/-- The steps of the port-info negotiation. -/
def Step.isPort : Step → Bool
  | .port_info_list_new => true
  | .port_info_list_load => true
  | .port_info_list_lookup_path => true
  | .port_info_list_get_info => true
  | .camera_set_port_info => true
  | _ => false

/-- The status the native library answers for a step of the negotiation of `self`. -/
def Step.status (nat : SessionNative) (self : Camera) : Step → Int
  | .abilities_list_new => nat.abilities_list_new
  | .abilities_list_load => nat.abilities_list_load
  | .abilities_list_lookup_model => nat.abilities_list_lookup_model (CString self.Model)
  | .abilities_list_get_abilities =>
    nat.abilities_list_get_abilities (nat.abilities_list_lookup_model (CString self.Model))
  | .camera_set_abilities => nat.camera_set_abilities
  | .port_info_list_new => nat.port_info_list_new
  | .port_info_list_load => nat.port_info_list_load
  | .port_info_list_lookup_path => nat.port_info_list_lookup_path (CString self.Port)
  | .port_info_list_get_info =>
    nat.port_info_list_get_info (nat.port_info_list_lookup_path (CString self.Port))
  | .camera_set_port_info => nat.camera_set_port_info

/-- A step fails when its status is negative; the two steps the code compares with
`!= GP_OK` (`gp_abilities_list_load`, `gp_port_info_list_new`) fail on every status but
`GP_OK`. -/
def Step.fails (nat : SessionNative) (self : Camera) (s : Step) : Bool :=
  match s with
  | .abilities_list_load => decide (s.status nat self ≠ GP_OK)
  | .port_info_list_new => decide (s.status nat self ≠ GP_OK)
  | _ => decide (s.status nat self < GP_OK)

/-- The first step of the negotiation that fails, if any. -/
def firstFailing (nat : SessionNative) (self : Camera) : Option Step :=
  Step.all.find? (Step.fails nat self)

/-- Native answers in which the model lookup reports `GP_ERROR_MODEL_NOT_FOUND` (-105). -/
def modelNotFound : SessionNative :=
  { okSession with abilities_list_lookup_model := fun _ => -105 }

/-- A transfer whose `gp_camera_file_get` fails with `GP_ERROR` before any callback. -/
def getFails : FileNative :=
  { file_new_from_handler := 0, file_pointer := some 9, callbacks := [],
    camera_file_get := -1, camera_file_delete := 0 }

/-- The path `/DC`, a NUL byte, `IM/a.jpg`. -/
def nulPath : GoString := str "/DC" ++ [0] ++ str "IM/a.jpg"

/-- Native listings of a device with the folder `/DCIM/` holding two files and one file at the
root; other paths answer `GP_ERROR_DIRECTORY_NOT_FOUND` (-107). -/
def sampleDevice : ListingNative :=
  { session := okSession
    list_new_folders := 0
    folder_list_folders := fun p =>
      if p = str "/" then (0, okList [str "DCIM"])
      else if p = str "/DCIM/" then (0, okList [])
      else (-107, [])
    list_new_files := 0
    folder_list_files := fun p =>
      if p = str "/" then (0, okList [str "readme.txt"])
      else if p = str "/DCIM/" then (0, okList [str "a.jpg", str "b.jpg"])
      else (-107, []) }

/-- The folder tree of `sampleDevice`. -/
def sampleTree : Folder :=
  .mk (.cons (str "DCIM") (.mk .nil [str "a.jpg", str "b.jpg"]) .nil) [str "readme.txt"]

/-! ## Properties: strings -/

theorem Split_ne_nil (s : GoString) (c : UInt8) : Split s c ≠ [] := by
  cases s with
  | nil => simp [Split]
  | cons b rest =>
    simp only [Split]
    split_ifs
    · simp
    · split <;> simp

theorem Split_of_not_mem (c : UInt8) : ∀ s : GoString, c ∉ s → Split s c = [s] := by
  intro s
  induction s with
  | nil => intro _; rfl
  | cons b rest ih =>
    intro h
    have hb : b ≠ c := fun e => h (by simp [e])
    have hr : c ∉ rest := fun e => h (List.mem_cons_of_mem _ e)
    simp [Split, hb, ih hr]

theorem Split_append (c : UInt8) (name : GoString) (hn : c ∉ name) :
    ∀ a : GoString, Split (a ++ c :: name) c = Split a c ++ [name] := by
  intro a
  induction a with
  | nil => simp [Split, Split_of_not_mem c name hn]
  | cons b rest ih =>
    by_cases hb : b = c
    · simp [Split, hb, ih]
    · cases hs : Split rest c with
      | nil => exact absurd hs (Split_ne_nil rest c)
      | cons p ps =>
        rw [hs] at ih
        simp [Split, hb, ih, hs]

theorem Join_cons_cons (b : UInt8) (p : GoString) (ps : List GoString) (s : GoString) :
    Join ((b :: p) :: ps) s = b :: Join (p :: ps) s := by
  cases ps <;> simp [Join]

theorem Join_Split (c : UInt8) : ∀ s : GoString, Join (Split s c) [c] = s := by
  intro s
  induction s with
  | nil => rfl
  | cons b rest ih =>
    cases hs : Split rest c with
    | nil => exact absurd hs (Split_ne_nil rest c)
    | cons p ps =>
      rw [hs] at ih
      by_cases hb : b = c
      · simp [Split, hb, hs, Join, ih]
      · simp [Split, hb, hs, Join_cons_cons, ih]

theorem exists_last_occurrence (c : UInt8) :
    ∀ s : GoString, c ∈ s → ∃ a name, s = a ++ c :: name ∧ c ∉ name := by
  intro s
  induction s with
  | nil => intro h; simp at h
  | cons b rest ih =>
    intro h
    by_cases hr : c ∈ rest
    · obtain ⟨a, name, he, hn⟩ := ih hr
      exact ⟨b :: a, name, by simp [he], hn⟩
    · have hb : c = b := by
        rcases List.mem_cons.mp h with h | h
        · exact h
        · exact absurd h hr
      exact ⟨[], rest, by simp [hb], hr⟩

theorem HasSuffix_sep_iff (s : GoString) :
    HasSuffix s [sep] = true ↔ ∃ a, s = a ++ [sep] := by
  constructor
  · intro h
    simp only [HasSuffix, List.length_singleton, Bool.and_eq_true, decide_eq_true_eq,
      beq_iff_eq] at h
    exact ⟨s.take (s.length - 1), by
      conv_lhs => rw [← List.take_append_drop (s.length - 1) s]
      rw [h.2]⟩
  · rintro ⟨a, rfl⟩
    simp [HasSuffix]

theorem CString_of_no_nul (s : GoString) (h : (0 : UInt8) ∉ s) : CString s = s := by
  unfold CString
  rw [List.takeWhile_eq_self_iff]
  intro b hb
  simp only [bne_iff_ne, ne_eq]
  intro hb0
  exact h (hb0 ▸ hb)

/-- The folder and name `GetFile` computes from a path that contains the separator. -/
theorem GetFile_parts (path : GoString) (h : sep ∈ path) :
    Join (Split path sep).dropLast [sep] ++ [sep] ++ (Split path sep).getLastD [] = path ∧
    sep ∉ (Split path sep).getLastD [] := by
  obtain ⟨a, name, rfl, hn⟩ := exists_last_occurrence sep path h
  rw [Split_append sep name hn a]
  simp [Join_Split, hn]

/-! ## Properties: native handles -/

theorem freeTimes_fixed {W : Type} (free : W → W × List NativeCall) (w : W)
    (h : free w = (w, [])) : ∀ k : Nat, freeTimes free k w = (w, []) := by
  intro k
  induction k with
  | zero => rfl
  | succ k ih => simp [freeTimes, h, ih]

theorem freeTimes_succ_of_idem {W : Type} (free : W → W × List NativeCall) (w : W)
    (h : free (free w).1 = ((free w).1, [])) (k : Nat) : freeTimes free (k + 1) w = free w := by
  simp [freeTimes, freeTimes_fixed free (free w).1 h k]

/-- C9: each of the four handle wrappers releases at most once: `free` leaves the pointer nil,
does nothing on a wrapper whose pointer is already nil, makes at most one native call (the
release call of its kind), and any number of consecutive `free` calls has the effect of one. -/
theorem free_releases_once :
    ReleasesOnce (fun w : cameraWrapper => w.pointer = none)
      (fun c => match c with | .gp_camera_unref _ => true | _ => false) cameraWrapper.free ∧
    ReleasesOnce (fun w : contextWrapper => w.pointer = none)
      (fun c => match c with | .gp_context_unref _ => true | _ => false) contextWrapper.free ∧
    ReleasesOnce (fun w : cstringWrapper => w.pointer = none)
      (fun c => match c with | .c_free _ => true | _ => false) cstringWrapper.free ∧
    ReleasesOnce (fun w : fileWrapper => w.pointer = none)
      (fun c => match c with | .gp_file_free _ => true | _ => false) fileWrapper.free := by
  refine ⟨?_, ?_, ?_, ?_⟩
  · intro w
    have idem : cameraWrapper.free (cameraWrapper.free w).1 = ((cameraWrapper.free w).1, []) := by
      rcases w with ⟨_ | p⟩ <;> rfl
    refine ⟨?_, ?_, ?_, ?_, idem, freeTimes_succ_of_idem _ w idem⟩
    · rcases w with ⟨_ | p⟩ <;> rfl
    · rcases w with ⟨_ | p⟩ <;> simp [cameraWrapper.free]
    · rcases w with ⟨_ | p⟩ <;> simp [cameraWrapper.free]
    · rcases w with ⟨_ | p⟩ <;> simp [cameraWrapper.free]
  · intro w
    have idem : contextWrapper.free (contextWrapper.free w).1 = ((contextWrapper.free w).1, []) := by
      rcases w with ⟨_ | p⟩ <;> rfl
    refine ⟨?_, ?_, ?_, ?_, idem, freeTimes_succ_of_idem _ w idem⟩
    · rcases w with ⟨_ | p⟩ <;> rfl
    · rcases w with ⟨_ | p⟩ <;> simp [contextWrapper.free]
    · rcases w with ⟨_ | p⟩ <;> simp [contextWrapper.free]
    · rcases w with ⟨_ | p⟩ <;> simp [contextWrapper.free]
  · intro w
    have idem : cstringWrapper.free (cstringWrapper.free w).1 = ((cstringWrapper.free w).1, []) := by
      rcases w with ⟨_ | p⟩ <;> rfl
    refine ⟨?_, ?_, ?_, ?_, idem, freeTimes_succ_of_idem _ w idem⟩
    · rcases w with ⟨_ | p⟩ <;> rfl
    · rcases w with ⟨_ | p⟩ <;> simp [cstringWrapper.free]
    · rcases w with ⟨_ | p⟩ <;> simp [cstringWrapper.free]
    · rcases w with ⟨_ | p⟩ <;> simp [cstringWrapper.free]
  · intro w
    have idem : fileWrapper.free (fileWrapper.free w).1 = ((fileWrapper.free w).1, []) := by
      rcases w with ⟨_ | p⟩ <;> rfl
    refine ⟨?_, ?_, ?_, ?_, idem, freeTimes_succ_of_idem _ w idem⟩
    · rcases w with ⟨_ | p⟩ <;> rfl
    · rcases w with ⟨_ | p⟩ <;> simp [fileWrapper.free]
    · rcases w with ⟨_ | p⟩ <;> simp [fileWrapper.free]
    · rcases w with ⟨_ | p⟩ <;> simp [fileWrapper.free]

/-! ## Properties: camera session -/

theorem getCamera_cached (nat : SessionNative) (self : Camera) (cam : cameraWrapper)
    (h : self.camera = some cam) :
    self.getCamera nat = { value := some cam, err := none, self := self, calls := [] } := by
  simp [Camera.getCamera, h]

theorem getCamera_self (nat : SessionNative) (self : Camera) (hc : self.camera = none) :
    (self.getCamera nat).self = { self with camera := some (newCamera nat) } := by
  unfold Camera.getCamera
  simp only [hc]
  by_cases h1 : nat.abilities_list_new < GP_OK
  · rw [if_pos h1]
  rw [if_neg h1]
  by_cases h2 : nat.abilities_list_load ≠ GP_OK
  · rw [if_pos h2]
  rw [if_neg h2]
  by_cases h3 : nat.abilities_list_lookup_model (CString self.Model) < GP_OK
  · rw [if_pos h3]
  rw [if_neg h3]
  by_cases h4 : nat.abilities_list_get_abilities (nat.abilities_list_lookup_model (CString self.Model)) < GP_OK
  · rw [if_pos h4]
  rw [if_neg h4]
  by_cases h5 : nat.camera_set_abilities < GP_OK
  · rw [if_pos h5]
  rw [if_neg h5]
  by_cases h6 : nat.port_info_list_new ≠ GP_OK
  · rw [if_pos h6]
  rw [if_neg h6]
  by_cases h7 : nat.port_info_list_load < GP_OK
  · rw [if_pos h7]
  rw [if_neg h7]
  by_cases h8 : nat.port_info_list_lookup_path (CString self.Port) < GP_OK
  · rw [if_pos h8]
  rw [if_neg h8]
  by_cases h9 : nat.port_info_list_get_info (nat.port_info_list_lookup_path (CString self.Port)) < GP_OK
  · rw [if_pos h9]
  rw [if_neg h9]
  by_cases h10 : nat.camera_set_port_info < GP_OK
  · rw [if_pos h10]
  rw [if_neg h10]

theorem getCamera_sets_camera (nat : SessionNative) (self : Camera) :
    (self.getCamera nat).self.camera ≠ none := by
  cases hc : self.camera with
  | some cam => simp [getCamera_cached nat self cam hc, hc]
  | none => simp [getCamera_self nat self hc]

theorem getCamera_again (nat nat2 : SessionNative) (self : Camera) :
    ((self.getCamera nat).self.getCamera nat2).err = none ∧
    ((self.getCamera nat).self.getCamera nat2).calls = [] ∧
    ((self.getCamera nat).self.getCamera nat2).self = (self.getCamera nat).self := by
  cases hc : (self.getCamera nat).self.camera with
  | none => exact absurd hc (getCamera_sets_camera nat self)
  | some cam => simp [getCamera_cached nat2 _ cam hc]

/-- C1: evaluation of `getCamera` at the failing input.  The first call fails at the model lookup
and returns a nil handle with a library error; the second call on the same camera makes no
native call and returns the handle of the failed negotiation with a nil error. -/
theorem getCamera_retry_after_failed_lookup :
    (freshCamera.getCamera modelNotFound).value = none ∧
    (freshCamera.getCamera modelNotFound).err
      = some (GoError.lib { code := -105, message := "", portError := false }) ∧
    ((freshCamera.getCamera modelNotFound).self.getCamera modelNotFound).value
      = some { pointer := some 1 } ∧
    ((freshCamera.getCamera modelNotFound).self.getCamera modelNotFound).err = none ∧
    ((freshCamera.getCamera modelNotFound).self.getCamera modelNotFound).calls = [] := by
  decide

/-- C10: when the model lookup of a `getCamera` call is invoked and answers a negative status
`c`, the call returns a nil handle and the library error with code `c` (`portError` false), and
its trace holds no port-info step.  On a camera without a cached handle the error returned is
that of the first failing step, with `portError` set exactly when that step is a port-info step;
with a cached handle there is no error and no native call. -/
theorem getCamera_error_kind (nat : SessionNative) (self : Camera) :
    (∀ c : Int, (∃ call ∈ (self.getCamera nat).calls, call.isModelLookup = true) →
      nat.abilities_list_lookup_model (CString self.Model) = c → c < 0 →
      (self.getCamera nat).value = none ∧
      (self.getCamera nat).err
        = some (GoError.lib { code := c, message := "", portError := false }) ∧
      ∀ call ∈ (self.getCamera nat).calls, call.isPortStep = false) ∧
    (self.camera = none →
      (self.getCamera nat).err = (firstFailing nat self).map (fun s =>
        GoError.lib { code := s.status nat self, message := "", portError := s.isPort })) ∧
    (self.camera ≠ none → (self.getCamera nat).err = none ∧ (self.getCamera nat).calls = []) := by
  cases hc : self.camera with
  | some cam => simp [getCamera_cached nat self cam hc]
  | none =>
    unfold Camera.getCamera
    simp only [hc]
    by_cases h1 : nat.abilities_list_new < GP_OK
    · rw [if_pos h1]
      simp [firstFailing, Step.all, Step.fails, Step.status, Step.isPort,
        NativeCall.isModelLookup, NativeCall.isPortStep, h1]
    rw [if_neg h1]
    by_cases h2 : nat.abilities_list_load ≠ GP_OK
    · rw [if_pos h2]
      simp [firstFailing, Step.all, Step.fails, Step.status, Step.isPort,
        NativeCall.isModelLookup, NativeCall.isPortStep, h1, h2]
    rw [if_neg h2]
    by_cases h3 : nat.abilities_list_lookup_model (CString self.Model) < GP_OK
    · rw [if_pos h3]
      simp [firstFailing, Step.all, Step.fails, Step.status, Step.isPort,
        NativeCall.isModelLookup, NativeCall.isPortStep, h1, h2, h3]
    rw [if_neg h3]
    by_cases h4 : nat.abilities_list_get_abilities (nat.abilities_list_lookup_model (CString self.Model)) < GP_OK
    · rw [if_pos h4]
      simp [firstFailing, Step.all, Step.fails, Step.status, Step.isPort,
        NativeCall.isModelLookup, NativeCall.isPortStep, h1, h2, h3, h4]
      intro hlt; exact absurd hlt h3
    rw [if_neg h4]
    by_cases h5 : nat.camera_set_abilities < GP_OK
    · rw [if_pos h5]
      simp [firstFailing, Step.all, Step.fails, Step.status, Step.isPort,
        NativeCall.isModelLookup, NativeCall.isPortStep, h1, h2, h3, h4, h5]
      intro hlt; exact absurd hlt h3
    rw [if_neg h5]
    by_cases h6 : nat.port_info_list_new ≠ GP_OK
    · rw [if_pos h6]
      simp [firstFailing, Step.all, Step.fails, Step.status, Step.isPort,
        NativeCall.isModelLookup, NativeCall.isPortStep, h1, h2, h3, h4, h5, h6]
      exact not_lt.mp h3
    rw [if_neg h6]
    by_cases h7 : nat.port_info_list_load < GP_OK
    · rw [if_pos h7]
      simp [firstFailing, Step.all, Step.fails, Step.status, Step.isPort,
        NativeCall.isModelLookup, NativeCall.isPortStep, h1, h2, h3, h4, h5, h6, h7]
      exact not_lt.mp h3
    rw [if_neg h7]
    by_cases h8 : nat.port_info_list_lookup_path (CString self.Port) < GP_OK
    · rw [if_pos h8]
      simp [firstFailing, Step.all, Step.fails, Step.status, Step.isPort,
        NativeCall.isModelLookup, NativeCall.isPortStep, h1, h2, h3, h4, h5, h6, h7, h8]
      exact not_lt.mp h3
    rw [if_neg h8]
    by_cases h9 : nat.port_info_list_get_info (nat.port_info_list_lookup_path (CString self.Port)) < GP_OK
    · rw [if_pos h9]
      simp [firstFailing, Step.all, Step.fails, Step.status, Step.isPort,
        NativeCall.isModelLookup, NativeCall.isPortStep, h1, h2, h3, h4, h5, h6, h7, h8, h9]
      exact not_lt.mp h3
    rw [if_neg h9]
    by_cases h10 : nat.camera_set_port_info < GP_OK
    · rw [if_pos h10]
      simp [firstFailing, Step.all, Step.fails, Step.status, Step.isPort,
        NativeCall.isModelLookup, NativeCall.isPortStep, h1, h2, h3, h4, h5, h6, h7, h8, h9, h10]
      exact not_lt.mp h3
    rw [if_neg h10]
    simp [firstFailing, Step.all, Step.fails, Step.status, Step.isPort,
      NativeCall.isModelLookup, NativeCall.isPortStep, h1, h2, h3, h4, h5, h6, h7, h8, h9, h10]
    exact not_lt.mp h3

/-- Witness for C10: a camera whose model is not found. -/
theorem getCamera_error_kind_witness :
    (freshCamera.getCamera modelNotFound).value = none ∧
    (freshCamera.getCamera modelNotFound).err
      = some (GoError.lib { code := -105, message := "", portError := false }) ∧
    ∀ call ∈ (freshCamera.getCamera modelNotFound).calls, call.isPortStep = false :=
  (getCamera_error_kind modelNotFound freshCamera).1 (-105) (by decide) (by decide) (by decide)

/-! ## Properties: streaming file reader -/

theorem foldl_run_fields (cbs : List Callback) (s : CameraFile) :
    (cbs.foldl Callback.run s).deleteAfter = s.deleteAfter ∧
    (cbs.foldl Callback.run s).file = s.file ∧
    (cbs.foldl Callback.run s).folder = s.folder ∧
    (cbs.foldl Callback.run s).name = s.name ∧
    (cbs.foldl Callback.run s).bytesRead = s.bytesRead ∧
    ((cbs.foldl Callback.run s).buffer.length : Int) = s.buffer.length + Callback.written cbs ∧
    (cbs.foldl Callback.run s).size = Callback.declared s.size cbs := by
  induction cbs generalizing s with
  | nil => simp [Callback.written, Callback.declared]
  | cons cb rest ih =>
    cases cb with
    | write data =>
      have := ih (handle_write s data)
      simp only [List.foldl_cons, Callback.run, Callback.written, Callback.declared]
      simp only [handle_write, CameraFile.Write] at this ⊢
      refine ⟨this.1, this.2.1, this.2.2.1, this.2.2.2.1, this.2.2.2.2.1, ?_, this.2.2.2.2.2.2⟩
      rw [this.2.2.2.2.2.1]; simp; ring
    | size n =>
      have := ih (handle_size s n)
      simp only [List.foldl_cons, Callback.run, Callback.written, Callback.declared]
      simp only [handle_size] at this ⊢
      exact this

theorem readSetup_of_file (nat : FileNative) (s : CameraFile) (h : s.file ≠ none) :
    s.readSetup nat = { err := none, self := s, calls := [] } := by
  simp [CameraFile.readSetup, h]

theorem readSetup_fields (nat : FileNative) (s : CameraFile) :
    (s.readSetup nat).self.deleteAfter = s.deleteAfter ∧
    (s.readSetup nat).self.folder = s.folder ∧
    (s.readSetup nat).self.name = s.name ∧
    (s.readSetup nat).self.file ≠ none ∧
    deleteCount (s.readSetup nat).calls = 0 := by
  by_cases hf : s.file = none
  · have := foldl_run_fields nat.callbacks
      { s with file := some { pointer := nat.file_pointer } }
    simp only [CameraFile.readSetup, hf, if_true, CameraFile.setupHandler, ne_eq,
      not_true_eq_false, if_false]
    split_ifs <;> simp [deleteCount, NativeCall.isFileDelete, this]
  · simp [readSetup_of_file nat s hf, hf, deleteCount]

theorem deleteCount_append (a b : List NativeCall) :
    deleteCount (a ++ b) = deleteCount a + deleteCount b := by
  simp [deleteCount]

theorem deleteCount_delete (folder name : Option GoString) :
    deleteCount [NativeCall.gp_camera_file_delete folder name] = 1 := by
  simp [deleteCount, NativeCall.isFileDelete]

theorem Read_deleteCount (nat : FileNative) (s : CameraFile) (plen : Nat)
    (hd : s.deleteAfter = true) :
    deleteCount (s.Read nat plen).calls = if findsExhausted nat s plen then 1 else 0 := by
  have hf := readSetup_fields nat s
  rw [hd] at hf
  unfold CameraFile.Read findsExhausted
  generalize s.readSetup nat = setup at hf ⊢
  rcases setup with ⟨err, s1, calls⟩
  obtain ⟨hdel, -, -, -, hcalls⟩ := hf
  simp only at hdel hcalls ⊢
  cases err with
  | some e => simp [hcalls]
  | none =>
    by_cases hb : s1.buffer = []
    · by_cases hp : plen = 0
      · simp [bufferRead, hb, hp, hcalls]
      · by_cases hs : s1.size > s1.bytesRead
        · simp [bufferRead, hb, hp, hcalls, hs, not_le.mpr hs]
        · have hs' : s1.size ≤ s1.bytesRead := not_lt.mp hs
          by_cases hr : nat.camera_file_delete = GP_OK
          · simp [bufferRead, hb, hp, hcalls, hs, hs', hdel, hr, deleteCount_append,
              deleteCount_delete]
          · simp [bufferRead, hb, hp, hcalls, hs, hs', hdel, hr, deleteCount_append,
              deleteCount_delete]
    · simp [bufferRead, hb, hcalls]

theorem readSetup_err_ne_eof (nat : FileNative) (s : CameraFile) :
    (s.readSetup nat).err ≠ some GoError.eof := by
  by_cases hf : s.file = none
  · simp only [CameraFile.readSetup, hf, if_true, CameraFile.setupHandler, ne_eq,
      not_true_eq_false, if_false]
    split_ifs <;> simp
  · simp [readSetup_of_file nat s hf]

theorem with_buffer_nil (s : CameraFile) (h : s.buffer = []) :
    { s with buffer := [], bytesRead := s.bytesRead + (([] : List UInt8).length : Int) } = s := by
  cases s
  simp_all

/-- The seven ways a `Read` can go, in terms of the reader `st.self` left by its setup. -/
theorem Read_cases (nat : FileNative) (s : CameraFile) (plen : Nat) :
    (∃ e, (s.readSetup nat).err = some e ∧ e ≠ GoError.eof ∧
      s.Read nat plen = { data := [], err := some e, self := (s.readSetup nat).self,
                          calls := (s.readSetup nat).calls }) ∨
    ((s.readSetup nat).err = none ∧ (s.readSetup nat).self.buffer ≠ [] ∧
      s.Read nat plen =
        { data := (s.readSetup nat).self.buffer.take plen, err := none,
          self := { (s.readSetup nat).self with
                    buffer := (s.readSetup nat).self.buffer.drop plen,
                    bytesRead := (s.readSetup nat).self.bytesRead
                      + (((s.readSetup nat).self.buffer.take plen).length : Int) },
          calls := (s.readSetup nat).calls }) ∨
    ((s.readSetup nat).err = none ∧ (s.readSetup nat).self.buffer = [] ∧
      (plen = 0 ∨ (s.readSetup nat).self.size > (s.readSetup nat).self.bytesRead) ∧
      s.Read nat plen = { data := [], err := none, self := (s.readSetup nat).self,
                          calls := (s.readSetup nat).calls }) ∨
    ((s.readSetup nat).err = none ∧ (s.readSetup nat).self.buffer = [] ∧ plen ≠ 0 ∧
      (s.readSetup nat).self.size ≤ (s.readSetup nat).self.bytesRead ∧
      (s.readSetup nat).self.deleteAfter = false ∧
      s.Read nat plen = { data := [], err := some GoError.eof, self := (s.readSetup nat).self,
                          calls := (s.readSetup nat).calls }) ∨
    ((s.readSetup nat).err = none ∧ (s.readSetup nat).self.buffer = [] ∧ plen ≠ 0 ∧
      (s.readSetup nat).self.size ≤ (s.readSetup nat).self.bytesRead ∧
      (s.readSetup nat).self.deleteAfter = true ∧ nat.camera_file_delete = GP_OK ∧
      s.Read nat plen = { data := [], err := some GoError.eof, self := (s.readSetup nat).self,
                          calls := (s.readSetup nat).calls ++
                            [NativeCall.gp_camera_file_delete
                              (s.readSetup nat).self.folder.pointer
                              (s.readSetup nat).self.name.pointer] }) ∨
    ((s.readSetup nat).err = none ∧ (s.readSetup nat).self.buffer = [] ∧ plen ≠ 0 ∧
      (s.readSetup nat).self.size ≤ (s.readSetup nat).self.bytesRead ∧
      (s.readSetup nat).self.deleteAfter = true ∧ nat.camera_file_delete ≠ GP_OK ∧
      s.Read nat plen =
        { data := [],
          err := some (GoError.lib { code := nat.camera_file_delete,
                                     message := "Unable to delete file after downloading",
                                     portError := false }),
          self := (s.readSetup nat).self,
          calls := (s.readSetup nat).calls ++
            [NativeCall.gp_camera_file_delete (s.readSetup nat).self.folder.pointer
              (s.readSetup nat).self.name.pointer] }) := by
  have hne := readSetup_err_ne_eof nat s
  unfold CameraFile.Read
  generalize s.readSetup nat = setup at hne ⊢
  rcases setup with ⟨err, s1, calls⟩
  simp only at hne ⊢
  cases err with
  | some e =>
    left
    exact ⟨e, rfl, fun h => hne (by rw [h]), rfl⟩
  | none =>
    right
    by_cases hb : s1.buffer = []
    · right
      by_cases hp : plen = 0
      · left
        simp [bufferRead, hb, hp, with_buffer_nil]
        cases s1; simp_all
      · by_cases hs : s1.size > s1.bytesRead
        · left
          simp [bufferRead, hb, hp, hs]
          cases s1; simp_all
        · right
          have hs' : s1.size ≤ s1.bytesRead := not_lt.mp hs
          cases hd : s1.deleteAfter with
          | false =>
            left
            simp [bufferRead, hb, hp, hs, hs', hd]
            cases s1; simp_all
          | true =>
            right
            by_cases hr : nat.camera_file_delete = GP_OK
            · left
              simp [bufferRead, hb, hp, hs, hs', hd, hr]
              cases s1; simp_all
            · right
              simp [bufferRead, hb, hp, hs, hs', hd, hr]
              cases s1; simp_all
    · left
      simp [bufferRead, hb]

theorem Read_deleteAfter (nat : FileNative) (s : CameraFile) (plen : Nat) :
    (s.Read nat plen).self.deleteAfter = s.deleteAfter := by
  have hf := (readSetup_fields nat s).1
  rcases Read_cases nat s plen with ⟨e, -, -, h⟩ | ⟨-, -, h⟩ | ⟨-, -, -, h⟩ | ⟨-, -, -, -, -, h⟩ |
    ⟨-, -, -, -, -, -, h⟩ | ⟨-, -, -, -, -, -, h⟩ <;> rw [h] <;> exact hf

theorem readAll_deleteCount (ins : List (FileNative × Nat)) :
    ∀ s : CameraFile, s.deleteAfter = true →
      (readAll s ins).map (fun r => deleteCount r.calls)
        = (exhaustedAt s ins).map (fun b => if b = true then 1 else 0) := by
  induction ins with
  | nil => intro s _; rfl
  | cons i rest ih =>
    intro s hd
    obtain ⟨nat, plen⟩ := i
    simp only [readAll, exhaustedAt, List.map_cons]
    rw [Read_deleteCount nat s plen hd,
      ih (s.Read nat plen).self (by rw [Read_deleteAfter]; exact hd)]

/-- Done: the state in which a reader is left by a `Read` that signalled end-of-stream. -/
theorem Read_eof_state (nat : FileNative) (s : CameraFile) (plen : Nat)
    (h : (s.Read nat plen).err = some GoError.eof) :
    (s.Read nat plen).self.file ≠ none ∧ (s.Read nat plen).self.buffer = [] ∧
    (s.Read nat plen).self.size ≤ (s.Read nat plen).self.bytesRead := by
  have hf := (readSetup_fields nat s).2.2.2.1
  rcases Read_cases nat s plen with ⟨e, -, hne, hr⟩ | ⟨-, -, hr⟩ | ⟨-, -, -, hr⟩ |
    ⟨-, hb, -, hs, -, hr⟩ | ⟨-, hb, -, hs, -, -, hr⟩ | ⟨-, -, -, -, -, -, hr⟩
  · rw [hr] at h; simp at h; exact absurd h hne
  · rw [hr] at h; simp at h
  · rw [hr] at h; simp at h
  · rw [hr]; exact ⟨hf, hb, hs⟩
  · rw [hr]; exact ⟨hf, hb, hs⟩
  · rw [hr] at h; simp at h

theorem Read_when_done (nat : FileNative) (s : CameraFile) (plen : Nat)
    (hfile : s.file ≠ none) (hb : s.buffer = []) (hs : s.size ≤ s.bytesRead) (hp : plen ≠ 0) :
    (s.Read nat plen).data = [] ∧ (s.Read nat plen).self = s ∧
    (∀ c ∈ (s.Read nat plen).calls, c.isFileGet = false) ∧
    ((s.deleteAfter = false ∨ nat.camera_file_delete = GP_OK) →
      (s.Read nat plen).err = some GoError.eof) := by
  have hset := readSetup_of_file nat s hfile
  rcases Read_cases nat s plen with ⟨e, he, -, hr⟩ | ⟨-, hb', hr⟩ | ⟨-, -, hc, hr⟩ |
    ⟨-, -, -, -, hd, hr⟩ | ⟨-, -, -, -, hd, hok, hr⟩ | ⟨-, -, -, -, hd, hno, hr⟩
  · rw [hset] at he; simp at he
  · rw [hset] at hb'; exact absurd hb hb'
  · rw [hset] at hc
    rcases hc with hc | hc
    · exact absurd hc hp
    · exact absurd hs (not_le.mpr hc)
  · rw [hr, hset]; simp
  · rw [hr, hset]; simp [NativeCall.isFileGet]
  · rw [hset] at hd
    simp only at hd
    rw [hr, hset]
    simp [NativeCall.isFileGet, hd, hno]

theorem readAll_when_done (ins : List (FileNative × Nat)) (s : CameraFile)
    (hfile : s.file ≠ none) (hb : s.buffer = []) (hs : s.size ≤ s.bytesRead)
    (hp : ∀ i ∈ ins, i.2 ≠ 0) :
    (∀ r ∈ readAll s ins, r.data = [] ∧ ∀ c ∈ r.calls, c.isFileGet = false) ∧
    ((s.deleteAfter = false ∨ ∀ i ∈ ins, i.1.camera_file_delete = GP_OK) →
      ∀ r ∈ readAll s ins, r.err = some GoError.eof) := by
  induction ins with
  | nil => simp [readAll]
  | cons i rest ih =>
    obtain ⟨nat, plen⟩ := i
    have hp0 : plen ≠ 0 := hp (nat, plen) (List.mem_cons_self _ _)
    obtain ⟨h1, h2, h3, h4⟩ := Read_when_done nat s plen hfile hb hs hp0
    have ih' := ih (fun i hi => hp i (List.mem_cons_of_mem _ hi))
    simp only [readAll, h2, List.mem_cons, forall_eq_or_imp]
    refine ⟨⟨⟨h1, h3⟩, ih'.1⟩, ?_⟩
    intro hdel
    refine ⟨h4 ?_, ih'.2 ?_⟩
    · rcases hdel with hdel | hdel
      · exact Or.inl hdel
      · exact Or.inr (hdel.1)
    · rcases hdel with hdel | hdel
      · exact Or.inl hdel
      · exact Or.inr hdel.2

theorem readSetup_bound (nat : FileNative) (s : CameraFile)
    (h : (s.file ≠ none ∧ s.bytesRead + s.buffer.length ≤ s.size) ∨
      (s.fresh ∧ (Callback.written nat.callbacks : Int) ≤ Callback.declared 0 nat.callbacks)) :
    (s.readSetup nat).self.bytesRead + (s.readSetup nat).self.buffer.length
      ≤ (s.readSetup nat).self.size := by
  rcases h with ⟨hf, hb⟩ | ⟨⟨hf, hbuf, hbr, hsz⟩, hw⟩
  · rw [readSetup_of_file nat s hf]; exact hb
  · have := foldl_run_fields nat.callbacks
      { s with file := some { pointer := nat.file_pointer } }
    obtain ⟨-, -, -, -, h5, h6, h7⟩ := this
    simp only [CameraFile.readSetup, hf, if_true, CameraFile.setupHandler, ne_eq,
      not_true_eq_false, if_false]
    split_ifs
    all_goals first
      | (rw [h5, h6, h7]; simp only [hbr, hbuf, hsz]; simpa using hw)
      | simp [hbuf, hbr, hsz]

theorem Read_bound (nat : FileNative) (s : CameraFile) (plen : Nat)
    (h : (s.file ≠ none ∧ s.bytesRead + s.buffer.length ≤ s.size) ∨
      (s.fresh ∧ (Callback.written nat.callbacks : Int) ≤ Callback.declared 0 nat.callbacks)) :
    ((s.Read nat plen).self.file ≠ none ∧
      (s.Read nat plen).self.bytesRead + (s.Read nat plen).self.buffer.length
        ≤ (s.Read nat plen).self.size) ∧
    ((s.Read nat plen).err = some GoError.eof →
      (s.Read nat plen).self.bytesRead = (s.Read nat plen).self.size) := by
  have hf := (readSetup_fields nat s).2.2.2.1
  have hb := readSetup_bound nat s h
  rcases Read_cases nat s plen with ⟨e, -, hne, hr⟩ | ⟨-, -, hr⟩ | ⟨-, -, -, hr⟩ |
    ⟨-, hbuf, -, hs, -, hr⟩ | ⟨-, hbuf, -, hs, -, -, hr⟩ | ⟨-, -, -, -, -, -, hr⟩
  · rw [hr]; exact ⟨⟨hf, hb⟩, fun he => absurd (Option.some.inj he) hne⟩
  · rw [hr]
    refine ⟨⟨hf, ?_⟩, by simp⟩
    have : (((s.readSetup nat).self.buffer.take plen).length : Int)
        + (((s.readSetup nat).self.buffer.drop plen).length : Int)
        = ((s.readSetup nat).self.buffer.length : Int) := by
      rw [← Nat.cast_add, ← List.length_append, List.take_append_drop]
    simp only
    omega
  · rw [hr]; exact ⟨⟨hf, hb⟩, by simp⟩
  · rw [hr]
    refine ⟨⟨hf, hb⟩, fun _ => ?_⟩
    rw [hbuf] at hb; simp at hb; simp only; omega
  · rw [hr]
    refine ⟨⟨hf, hb⟩, fun _ => ?_⟩
    rw [hbuf] at hb; simp at hb; simp only; omega
  · rw [hr]; exact ⟨⟨hf, hb⟩, by simp⟩

theorem readAll_bound (ins : List (FileNative × Nat)) :
    ∀ s : CameraFile, s.file ≠ none → s.bytesRead + s.buffer.length ≤ s.size →
      ∀ r ∈ readAll s ins, r.self.bytesRead ≤ r.self.size ∧
        (r.err = some GoError.eof → r.self.bytesRead = r.self.size) := by
  induction ins with
  | nil => intro s _ _ r hr; simp [readAll] at hr
  | cons i rest ih =>
    intro s hf hb r hr
    obtain ⟨nat, plen⟩ := i
    obtain ⟨⟨h1, h2⟩, h3⟩ := Read_bound nat s plen (Or.inl ⟨hf, hb⟩)
    simp only [readAll, List.mem_cons] at hr
    rcases hr with rfl | hr
    · refine ⟨?_, h3⟩
      have : (0 : Int) ≤ ((s.Read nat plen).self.buffer.length : Int) := Int.natCast_nonneg _
      omega
    · exact ih _ h1 h2 r hr

theorem deleteCount_allCalls (rs : List ReadResult) :
    deleteCount (allCalls rs) = (rs.map (fun r => deleteCount r.calls)).sum := by
  induction rs with
  | nil => rfl
  | cons r rest ih => simp [allCalls, deleteCount_append, ih]

/-- C2 (as stated, refuted): a reader with `deleteAfter` on a zero-byte file, read twice with a
one-byte destination, issues the native delete twice. -/
theorem delete_issued_again_after_eof :
    (readAll (sampleReader true) [(transfer [.size 0] 0, 1), (transfer [] 0, 1)]).map
        (fun r => (r.err, deleteCount r.calls))
      = [(some GoError.eof, 1), (some GoError.eof, 1)] ∧
    deleteCount (allCalls
      (readAll (sampleReader true) [(transfer [.size 0] 0, 1), (transfer [] 0, 1)])) = 2 := by
  decide

/-- C2 (amended): for a reader with `deleteAfter` and any sequence of `Read` calls, a `Read`
issues the native delete once if it finds the internal buffer exhausted with
`bytesRead >= size`, and not at all otherwise.  So in a sequence whose last `Read` is the first
to find the reader exhausted, no earlier `Read` issues the delete and it is issued exactly once
over the whole sequence. -/
theorem delete_once_at_first_exhausted_read (s : CameraFile) (hd : s.deleteAfter = true)
    (ins : List (FileNative × Nat)) :
    (readAll s ins).map (fun r => deleteCount r.calls)
      = (exhaustedAt s ins).map (fun b => if b = true then 1 else 0) ∧
    ∀ k : Nat, exhaustedAt s ins = List.replicate k false ++ [true] →
      (readAll s ins).map (fun r => deleteCount r.calls) = List.replicate k 0 ++ [1] ∧
      deleteCount (allCalls (readAll s ins)) = 1 := by
  have h := readAll_deleteCount ins s hd
  refine ⟨h, ?_⟩
  intro k hk
  have h2 : (readAll s ins).map (fun r => deleteCount r.calls) = List.replicate k 0 ++ [1] := by
    rw [h, hk]; simp
  refine ⟨h2, ?_⟩
  rw [deleteCount_allCalls, h2]
  simp

/-- Witness for C2: a two-byte file read with a five-byte destination; the second `Read` is the
first to find the reader exhausted. -/
theorem delete_once_at_first_exhausted_read_witness :
    (readAll (sampleReader true)
        [(transfer [.size 2, .write [1, 2]] 0, 5), (transfer [] 0, 5)]).map
        (fun r => deleteCount r.calls) = List.replicate 1 0 ++ [1] ∧
    deleteCount (allCalls (readAll (sampleReader true)
        [(transfer [.size 2, .write [1, 2]] 0, 5), (transfer [] 0, 5)])) = 1 :=
  (delete_once_at_first_exhausted_read (sampleReader true) rfl
    [(transfer [.size 2, .write [1, 2]] 0, 5), (transfer [] 0, 5)]).2 1 (by decide)

/-- C3: evaluation of `Read` at the failing input.  The first `Read` fails in
`gp_camera_file_get` and returns zero bytes with the error; the second `Read` on the same
reader returns `io.EOF` and issues the native delete of the file that was never fetched. -/
theorem read_after_failed_get :
    ((sampleReader true).Read getFails 4).data = [] ∧
    ((sampleReader true).Read getFails 4).err
      = some (GoError.lib { code := -1, message := "Unable to get file", portError := false }) ∧
    (((sampleReader true).Read getFails 4).self.Read (transfer [] 0) 4).data = [] ∧
    (((sampleReader true).Read getFails 4).self.Read (transfer [] 0) 4).err
      = some GoError.eof ∧
    (((sampleReader true).Read getFails 4).self.Read (transfer [] 0) 4).calls
      = [NativeCall.gp_camera_file_delete (some (str "/DCIM/")) (some (str "a.jpg"))] := by
  decide

/-- C4 (as stated, refuted): a reader with `deleteAfter` has returned end-of-stream; the next
`Read` with a one-byte destination issues the delete again, the native library answers
`GP_ERROR_FILE_NOT_FOUND` (-108), and the `Read` returns that error instead of end-of-stream. -/
theorem read_after_eof_returns_delete_error :
    ((sampleReader true).Read (transfer [.size 0] 0) 1).err = some GoError.eof ∧
    (((sampleReader true).Read (transfer [.size 0] 0) 1).self.Read (transfer [] (-108)) 1).err
      = some (GoError.lib { code := -108, message := "Unable to delete file after downloading",
                            portError := false }) := by
  decide

theorem readAll_done_eq_map (ins : List (FileNative × Nat)) (s : CameraFile)
    (hfile : s.file ≠ none) (hb : s.buffer = []) (hs : s.size ≤ s.bytesRead)
    (hp : ∀ i ∈ ins, i.2 ≠ 0) :
    readAll s ins = ins.map (fun i => s.Read i.1 i.2) := by
  induction ins with
  | nil => rfl
  | cons i rest ih =>
    obtain ⟨nat, plen⟩ := i
    have hp0 : plen ≠ 0 := hp (nat, plen) (List.mem_cons_self _ _)
    obtain ⟨-, h2, -, -⟩ := Read_when_done nat s plen hfile hb hs hp0
    simp only [readAll, h2, List.map_cons]
    rw [ih (fun i hi => hp i (List.mem_cons_of_mem _ hi))]

/-- C4 (amended): once a `Read` has returned end-of-stream, every further `Read` with a
non-empty destination returns zero bytes and issues no native get-file call; it returns
end-of-stream again when the reader has no `deleteAfter` or the native delete of that `Read`
succeeds. -/
theorem reads_after_eof (nat : FileNative) (s : CameraFile) (plen : Nat)
    (h : (s.Read nat plen).err = some GoError.eof)
    (ins : List (FileNative × Nat)) (hp : ∀ i ∈ ins, i.2 ≠ 0) :
    (∀ r ∈ readAll (s.Read nat plen).self ins,
      r.n = 0 ∧ ∀ c ∈ r.calls, c.isFileGet = false) ∧
    ((s.deleteAfter = false ∨ ∀ i ∈ ins, i.1.camera_file_delete = GP_OK) →
      ∀ r ∈ readAll (s.Read nat plen).self ins, r.err = some GoError.eof) ∧
    ∀ (k : Nat) (i : FileNative × Nat), ins[k]? = some i →
      (s.deleteAfter = false ∨ i.1.camera_file_delete = GP_OK) →
      ((readAll (s.Read nat plen).self ins)[k]?).map (fun r => r.err)
        = some (some GoError.eof) := by
  obtain ⟨h1, h2, h3⟩ := Read_eof_state nat s plen h
  have key := readAll_when_done ins (s.Read nat plen).self h1 h2 h3 hp
  rw [Read_deleteAfter] at key
  refine ⟨fun r hr => ⟨?_, (key.1 r hr).2⟩, key.2, ?_⟩
  · simp [ReadResult.n, (key.1 r hr).1]
  · intro k i hk hdel
    have hi : i ∈ ins := List.getElem?_mem hk
    have hw := (Read_when_done i.1 (s.Read nat plen).self i.2 h1 h2 h3 (hp i hi)).2.2.2
    rw [Read_deleteAfter] at hw
    rw [readAll_done_eq_map ins _ h1 h2 h3 hp, List.getElem?_map, hk]
    simp [hw hdel]

/-- Witness for C4: a reader without `deleteAfter` on a zero-byte file, read twice more after
its end-of-stream; both reads return zero bytes and end-of-stream. -/
theorem reads_after_eof_witness :
    (readAll ((sampleReader false).Read (transfer [.size 0] 0) 1).self
        [(transfer [] 0, 1), (transfer [] (-108), 3)]).all
      (fun r => decide (r.n = 0) && decide (r.err = some GoError.eof)) = true :=
  List.all_eq_true.mpr fun r hr =>
    have t := reads_after_eof (transfer [.size 0] 0) (sampleReader false) 1 (by decide)
      [(transfer [] 0, 1), (transfer [] (-108), 3)] (by decide)
    by simp [(t.1 r hr).1, t.2.1 (Or.inl rfl) r hr]

/-- C5 (as stated, refuted): the transfer declares two bytes and delivers three; after the first
`Read` the reader has `bytesRead = 3` and `size = 2`, and the `Read` that signals end-of-stream
leaves `bytesRead = 3`. -/
theorem bytesRead_exceeds_declared_size :
    ((sampleReader false).Read (transfer [.size 2, .write [1, 2], .write [3]] 0) 10).self.bytesRead
      = 3 ∧
    ((sampleReader false).Read (transfer [.size 2, .write [1, 2], .write [3]] 0) 10).self.size
      = 2 ∧
    (((sampleReader false).Read (transfer [.size 2, .write [1, 2], .write [3]] 0) 10).self.Read
      (transfer [] 0) 10).err = some GoError.eof ∧
    (((sampleReader false).Read (transfer [.size 2, .write [1, 2], .write [3]] 0) 10).self.Read
      (transfer [] 0) 10).self.bytesRead = 3 ∧
    (((sampleReader false).Read (transfer [.size 2, .write [1, 2], .write [3]] 0) 10).self.Read
      (transfer [] 0) 10).self.size = 2 := by
  decide

/-- C5 (amended): for a reader as constructed and any sequence of `Read` calls in which the
write callbacks of the transfer deliver no more bytes than its size callback declares, after
every `Read` `bytesRead` does not exceed `size`, and after a `Read` that signals end-of-stream
it equals `size`. -/
theorem bytesRead_bounded_by_size (s : CameraFile) (hf : s.fresh)
    (ins : List (FileNative × Nat))
    (hn : ∀ i ∈ ins.head?,
      (Callback.written i.1.callbacks : Int) ≤ Callback.declared 0 i.1.callbacks) :
    ∀ r ∈ readAll s ins, r.self.bytesRead ≤ r.self.size ∧
      (r.err = some GoError.eof → r.self.bytesRead = r.self.size) := by
  cases ins with
  | nil => intro r hr; simp [readAll] at hr
  | cons i rest =>
    obtain ⟨nat, plen⟩ := i
    have hw : (Callback.written nat.callbacks : Int) ≤ Callback.declared 0 nat.callbacks :=
      hn (nat, plen) (by simp)
    obtain ⟨⟨h1, h2⟩, h3⟩ := Read_bound nat s plen (Or.inr ⟨hf, hw⟩)
    intro r hr
    simp only [readAll, List.mem_cons] at hr
    rcases hr with rfl | hr
    · refine ⟨?_, h3⟩
      have : (0 : Int) ≤ ((s.Read nat plen).self.buffer.length : Int) := Int.natCast_nonneg _
      omega
    · exact readAll_bound rest _ h1 h2 r hr

/-- Witness for C5: a three-byte file read with a two-byte destination; after each of the
three reads `bytesRead` is at most `size`. -/
theorem bytesRead_bounded_by_size_witness :
    (readAll (sampleReader true)
        [(transfer [.size 3, .write [1, 2, 3]] 0, 2), (transfer [] 0, 2),
         (transfer [] 0, 2)]).all
      (fun r => decide (r.self.bytesRead ≤ r.self.size)) = true :=
  List.all_eq_true.mpr fun r hr =>
    decide_eq_true ((bytesRead_bounded_by_size (sampleReader true) (by decide)
      [(transfer [.size 3, .write [1, 2, 3]] 0, 2), (transfer [] 0, 2), (transfer [] 0, 2)]
      (by decide)) r hr).1

/-! ## Properties: device directory -/

theorem getCamera_calls_no_file (nat : SessionNative) (self : Camera) :
    ∀ c ∈ (self.getCamera nat).calls, c.isFileGet = false := by
  cases hc : self.camera with
  | some cam => simp [getCamera_cached nat self cam hc]
  | none =>
    unfold Camera.getCamera
    simp only [hc]
    by_cases h1 : nat.abilities_list_new < GP_OK
    · rw [if_pos h1]
      simp [NativeCall.isFileGet]
    rw [if_neg h1]
    by_cases h2 : nat.abilities_list_load ≠ GP_OK
    · rw [if_pos h2]
      simp [NativeCall.isFileGet]
    rw [if_neg h2]
    by_cases h3 : nat.abilities_list_lookup_model (CString self.Model) < GP_OK
    · rw [if_pos h3]
      simp [NativeCall.isFileGet]
    rw [if_neg h3]
    by_cases h4 : nat.abilities_list_get_abilities (nat.abilities_list_lookup_model (CString self.Model)) < GP_OK
    · rw [if_pos h4]
      simp [NativeCall.isFileGet]
    rw [if_neg h4]
    by_cases h5 : nat.camera_set_abilities < GP_OK
    · rw [if_pos h5]
      simp [NativeCall.isFileGet]
    rw [if_neg h5]
    by_cases h6 : nat.port_info_list_new ≠ GP_OK
    · rw [if_pos h6]
      simp [NativeCall.isFileGet]
    rw [if_neg h6]
    by_cases h7 : nat.port_info_list_load < GP_OK
    · rw [if_pos h7]
      simp [NativeCall.isFileGet]
    rw [if_neg h7]
    by_cases h8 : nat.port_info_list_lookup_path (CString self.Port) < GP_OK
    · rw [if_pos h8]
      simp [NativeCall.isFileGet]
    rw [if_neg h8]
    by_cases h9 : nat.port_info_list_get_info (nat.port_info_list_lookup_path (CString self.Port)) < GP_OK
    · rw [if_pos h9]
      simp [NativeCall.isFileGet]
    rw [if_neg h9]
    by_cases h10 : nat.camera_set_port_info < GP_OK
    · rw [if_pos h10]
      simp [NativeCall.isFileGet]
    rw [if_neg h10]
    simp [NativeCall.isFileGet]

theorem readSetup_calls (nat : FileNative) (s : CameraFile) :
    (∀ c ∈ (s.readSetup nat).calls, c.isFileGet = true →
      c = NativeCall.gp_camera_file_get s.folder.pointer s.name.pointer) ∧
    (s.file = none → nat.file_new_from_handler = GP_OK →
      NativeCall.gp_camera_file_get s.folder.pointer s.name.pointer ∈ (s.readSetup nat).calls) := by
  by_cases hf : s.file = none
  · have := foldl_run_fields nat.callbacks
      { s with file := some { pointer := nat.file_pointer } }
    obtain ⟨-, -, h3, h4, -⟩ := this
    simp only [CameraFile.readSetup, hf, if_true, CameraFile.setupHandler, ne_eq,
      not_true_eq_false, if_false]
    split_ifs <;> simp_all [NativeCall.isFileGet]
  · simp [readSetup_of_file nat s hf, hf]

theorem Read_calls (nat : FileNative) (s : CameraFile) (plen : Nat) :
    ∃ extra, (s.Read nat plen).calls = (s.readSetup nat).calls ++ extra ∧
      ∀ c ∈ extra, c.isFileGet = false := by
  rcases Read_cases nat s plen with ⟨e, -, -, h⟩ | ⟨-, -, h⟩ | ⟨-, -, -, h⟩ | ⟨-, -, -, -, -, h⟩ |
    ⟨-, -, -, -, -, -, h⟩ | ⟨-, -, -, -, -, -, h⟩
  · exact ⟨[], by simp [h], by simp⟩
  · exact ⟨[], by simp [h], by simp⟩
  · exact ⟨[], by simp [h], by simp⟩
  · exact ⟨[], by simp [h], by simp⟩
  · exact ⟨_, by rw [h], by simp [NativeCall.isFileGet]⟩
  · exact ⟨_, by rw [h], by simp [NativeCall.isFileGet]⟩

/-- C8 (as stated, refuted): the path `/DC\0IM/a.jpg` contains `/`, yet the reader `GetFile`
returns holds, and its first `Read` passes to the native get-file call, the folder `/DC`, which
neither ends with `/` nor gives back the path when the name `a.jpg` is appended. -/
theorem GetFile_truncates_at_nul :
    sep ∈ nulPath ∧
    (freshCamera.GetFile okSession nulPath).value.map
        (fun r => (r.folder.pointer, r.name.pointer, (r.Read (transfer [] 0) 4).calls))
      = some (some (str "/DC"), some (str "a.jpg"),
          [NativeCall.gp_file_new_from_handler,
           NativeCall.gp_camera_file_get (some (str "/DC")) (some (str "a.jpg"))]) ∧
    HasSuffix (str "/DC") [sep] = false ∧
    str "/DC" ++ str "a.jpg" ≠ nulPath := by
  decide

/-- C8 (amended): for a path that contains `/` and no NUL byte, a reader returned by `GetFile`
holds the folder and name that split the path at its last `/`: `folder ++ name = path`, `folder`
ends with `/`, `name` contains no `/`.  `GetFile` itself issues no native get-file call; in the
first `Read` every get-file call is the one for this folder and name, and it is issued as soon
as `gp_file_new_from_handler` succeeds. -/
theorem GetFile_folder_and_name (nat : SessionNative) (self : Camera) (path : GoString)
    (hsep : sep ∈ path) (hnul : (0 : UInt8) ∉ path)
    (r : CameraFile) (hr : (self.GetFile nat path).value = some r) :
    ∃ folder name,
      r.folder.pointer = some folder ∧ r.name.pointer = some name ∧
      folder ++ name = path ∧ HasSuffix folder [sep] = true ∧ sep ∉ name ∧
      (∀ c ∈ (self.GetFile nat path).calls, c.isFileGet = false) ∧
      ∀ (fnat : FileNative) (plen : Nat),
        (∀ c ∈ (r.Read fnat plen).calls, c.isFileGet = true →
          c = NativeCall.gp_camera_file_get (some folder) (some name)) ∧
        (fnat.file_new_from_handler = GP_OK →
          NativeCall.gp_camera_file_get (some folder) (some name) ∈ (r.Read fnat plen).calls) := by
  obtain ⟨hjoin, hname⟩ := GetFile_parts path hsep
  have hf0 : (0 : UInt8) ∉ Join (Split path sep).dropLast [sep] ++ [sep] := by
    intro h
    apply hnul
    rw [← hjoin]
    exact List.mem_append_left _ h
  have hn0 : (0 : UInt8) ∉ (Split path sep).getLastD [] := by
    intro h
    apply hnul
    rw [← hjoin]
    exact List.mem_append_right _ h
  have hcalls := getCamera_calls_no_file nat self
  refine ⟨Join (Split path sep).dropLast [sep] ++ [sep], (Split path sep).getLastD [], ?_⟩
  cases he : (self.getCamera nat).err with
  | some e => simp [Camera.GetFile, he] at hr
  | none =>
    have hc2 : (self.GetFile nat path).calls = (self.getCamera nat).calls := by
      simp only [Camera.GetFile, he]
    simp only [Camera.GetFile, he, Option.some.injEq] at hr
    have hfo : r.folder.pointer = some (Join (Split path sep).dropLast [sep] ++ [sep]) := by
      rw [← hr]; simp only [newCstring, CString_of_no_nul _ hf0]
    have hna : r.name.pointer = some ((Split path sep).getLastD []) := by
      rw [← hr]; simp only [newCstring, CString_of_no_nul _ hn0]
    have hfile : r.file = none := by rw [← hr]
    refine ⟨hfo, hna, hjoin, (HasSuffix_sep_iff _).2 ⟨_, rfl⟩, hname, ?_, ?_⟩
    · rw [hc2]; exact hcalls
    intro fnat plen
    obtain ⟨extra, hx, hextra⟩ := Read_calls fnat r plen
    obtain ⟨hs1, hs2⟩ := readSetup_calls fnat r
    rw [hfo, hna] at hs1 hs2
    rw [hx]
    constructor
    · intro c hc hget
      rcases List.mem_append.mp hc with hc | hc
      · exact hs1 c hc hget
      · rw [hextra c hc] at hget; exact absurd hget (by simp)
    · intro hok
      exact List.mem_append_left _ (hs2 hfile hok)

/-- Witness for C8: the path of the specification's scenario. -/
theorem GetFile_folder_and_name_witness :
    ∃ r folder name, (freshCamera.GetFile okSession
        (str "/store_00010001/DCIM/100CANON/IMG_0001.JPG")).value = some r ∧
      r.folder.pointer = some (str "/store_00010001/DCIM/100CANON/") ∧
      r.name.pointer = some (str "IMG_0001.JPG") ∧
      r.folder.pointer = some folder ∧ r.name.pointer = some name ∧
      folder ++ name = str "/store_00010001/DCIM/100CANON/IMG_0001.JPG" ∧
      HasSuffix folder [sep] = true ∧ sep ∉ name :=
  let ⟨folder, name, h1, h2, h3, h4, h5, _⟩ := GetFile_folder_and_name okSession freshCamera
    (str "/store_00010001/DCIM/100CANON/IMG_0001.JPG") (by decide) (by decide) _ rfl
  ⟨_, folder, name, rfl, by decide, by decide, h1, h2, h3, h4, h5⟩

theorem namesLoop_okList (dir suffix : GoString) (names : List GoString) :
    ∀ acc : List GoString, namesLoop dir suffix (okList names) acc
      = .ok (acc ++ names.map (fun name => dir ++ name ++ suffix)) := by
  induction names with
  | nil => intro acc; simp [okList, namesLoop]
  | cons name rest ih =>
    intro acc
    have h := ih (acc ++ [dir ++ name ++ suffix])
    unfold okList at h ⊢
    rw [List.map_cons, namesLoop, if_neg (by simp), h, List.map_cons, List.append_assoc]
    rfl

theorem normalize_eq (dir : GoString) :
    (if !HasSuffix dir [sep] then dir ++ [sep] else dir) = normalize dir := by
  unfold normalize
  cases HasSuffix dir [sep] <;> simp

theorem HasSuffix_normalize (dir : GoString) : HasSuffix (normalize dir) [sep] = true := by
  unfold normalize
  cases h : HasSuffix dir [sep]
  · simp only [Bool.false_eq_true, if_false]; exact (HasSuffix_sep_iff _).2 ⟨dir, rfl⟩
  · simp [h]

theorem normalize_of_suffix (d : GoString) (h : HasSuffix d [sep] = true) : normalize d = d := by
  simp [normalize, h]

theorem ListDirectory_ok (nat : ListingNative) (self : Camera) (dir : GoString)
    (folders files : List GoString)
    (hcam : (self.getCamera nat.session).err = none)
    (hnf : GP_OK ≤ nat.list_new_folders)
    (hlf : GP_OK ≤ (nat.folder_list_folders (CString (normalize dir))).1)
    (hfo : (nat.folder_list_folders (CString (normalize dir))).2 = okList folders)
    (hni : GP_OK ≤ nat.list_new_files)
    (hli : GP_OK ≤ (nat.folder_list_files (CString (normalize dir))).1)
    (hfi : (nat.folder_list_files (CString (normalize dir))).2 = okList files) :
    self.ListDirectory nat dir =
      { value := folders.map (fun f => normalize dir ++ f ++ [sep])
          ++ files.map (fun g => normalize dir ++ g),
        err := none, self := (self.getCamera nat.session).self } := by
  unfold Camera.ListDirectory
  simp only [normalize_eq, hcam]
  rw [if_neg (not_lt.mpr hnf), if_neg (not_lt.mpr hlf), hfo, namesLoop_okList]
  simp only
  rw [if_neg (not_lt.mpr hni), if_neg (not_lt.mpr hli), hfi, namesLoop_okList]
  simp

theorem HasSuffix_append_file (d g : GoString) (hg : g ≠ []) (hs : sep ∉ g) :
    HasSuffix (d ++ g) [sep] = false := by
  cases h : HasSuffix (d ++ g) [sep] with
  | false => rfl
  | true =>
    obtain ⟨a, ha⟩ := (HasSuffix_sep_iff _).1 h
    have h1 : (d ++ g).getLast? = some sep := by rw [ha]; simp
    rw [List.getLast?_append_of_ne_nil d hg] at h1
    exact absurd (List.mem_of_getLast?_eq_some h1) hs

theorem recursiveLoop_files (recurse : Camera → GoString → Option ListResult) :
    ∀ (items : List GoString) (self : Camera) (acc : List GoString),
      (∀ i ∈ items, HasSuffix i [sep] = false) →
      recursiveLoop recurse items self acc
        = some { value := acc ++ items, err := none, self := self } := by
  intro items
  induction items with
  | nil => intro self acc _; simp [recursiveLoop]
  | cons i rest ih =>
    intro self acc h
    have hi := h i (List.mem_cons_self _ _)
    rw [recursiveLoop, hi, if_neg (by simp), ih self _ (fun j hj => h j (List.mem_cons_of_mem _ hj))]
    simp

theorem sep_split_unique (c : UInt8) :
    ∀ (a b x y : GoString), c ∉ a → c ∉ b → a ++ c :: x = b ++ c :: y → a = b := by
  intro a
  induction a with
  | nil =>
    intro b x y _ hb h
    cases b with
    | nil => rfl
    | cons b0 b' =>
      simp only [List.nil_append, List.cons_append, List.cons.injEq] at h
      exact absurd (by rw [h.1]; exact List.mem_cons_self _ _) hb
  | cons a0 a' ih =>
    intro b x y ha hb h
    cases b with
    | nil =>
      simp only [List.nil_append, List.cons_append, List.cons.injEq] at h
      exact absurd (by rw [← h.1]; exact List.mem_cons_self _ _) ha
    | cons b0 b' =>
      simp only [List.cons_append, List.cons.injEq] at h
      rw [h.1, ih b' x y (fun m => ha (List.mem_cons_of_mem _ m))
        (fun m => hb (List.mem_cons_of_mem _ m)) h.2]

theorem Subfolders.names_no_sep (s : Subfolders) :
    s.wellNamed → ∀ f ∈ s.names, sep ∉ f := by
  induction s using Subfolders.rec (motive_1 := fun _ => True) with
  | mk _ _ _ => trivial
  | nil => intro _ f hf; simp [Subfolders.names] at hf
  | cons name content rest _ ih =>
    intro hw f hf
    simp only [Subfolders.wellNamed] at hw
    simp only [Subfolders.names, List.mem_cons] at hf
    rcases hf with rfl | hf
    · exact hw.1
    · exact ih hw.2.2 f hf

theorem expand_shape (t : Folder) :
    ∀ d : GoString, t.wellNamed →
      (t.expand d).Nodup ∧ (∀ p ∈ t.expand d, HasSuffix p [sep] = false) ∧
      ∀ p ∈ t.expand d, ∃ q, p = d ++ q := by
  induction t using Folder.rec (motive_2 := fun s => ∀ d : GoString, s.wellNamed →
      s.names.Nodup →
      (s.expand d).Nodup ∧ (∀ p ∈ s.expand d, HasSuffix p [sep] = false) ∧
      ∀ p ∈ s.expand d, ∃ f ∈ s.names, ∃ q, p = d ++ f ++ [sep] ++ q) with
  | mk folders files ih =>
    intro d hw
    simp only [Folder.wellNamed] at hw
    obtain ⟨hfiles, hnd, hnames, hsub⟩ := hw
    obtain ⟨h1, h2, h3⟩ := ih d hsub hnames
    simp only [Folder.expand]
    refine ⟨?_, ?_, ?_⟩
    · refine List.Nodup.append h1 (hnd.map (fun a b hab => List.append_cancel_left hab)) ?_
      intro p hp1 hp2
      obtain ⟨f, -, q, hq⟩ := h3 p hp1
      obtain ⟨g, hg, rfl⟩ := List.mem_map.mp hp2
      have : g = f ++ sep :: q := by
        have := hq
        simp only [List.append_assoc, List.singleton_append] at this
        exact List.append_cancel_left this
      exact (hfiles g hg).2 (by rw [this]; simp)
    · intro p hp
      rcases List.mem_append.mp hp with hp | hp
      · exact h2 p hp
      · obtain ⟨g, hg, rfl⟩ := List.mem_map.mp hp
        exact HasSuffix_append_file d g (hfiles g hg).1 (hfiles g hg).2
    · intro p hp
      rcases List.mem_append.mp hp with hp | hp
      · obtain ⟨f, -, q, hq⟩ := h3 p hp
        exact ⟨f ++ [sep] ++ q, by rw [hq]; simp⟩
      · obtain ⟨g, -, rfl⟩ := List.mem_map.mp hp
        exact ⟨g, rfl⟩
  | nil => simp [Subfolders.expand]
  | cons name content rest ihc ihr =>
    rename_i d hw hnames
    simp only [Subfolders.wellNamed] at hw
    obtain ⟨hname, hcw, hrw⟩ := hw
    simp only [Subfolders.names, List.nodup_cons] at hnames
    obtain ⟨c1, c2, c3⟩ := ihc (d ++ name ++ [sep]) hcw
    obtain ⟨r1, r2, r3⟩ := ihr d hrw hnames.2
    simp only [Subfolders.expand]
    refine ⟨?_, ?_, ?_⟩
    · refine List.Nodup.append c1 r1 ?_
      intro p hp1 hp2
      obtain ⟨q, hq⟩ := c3 p hp1
      obtain ⟨f, hf, q2, hq2⟩ := r3 p hp2
      have e : name ++ sep :: q = f ++ sep :: q2 := by
        have := hq.symm.trans hq2
        simp only [List.append_assoc, List.singleton_append] at this
        exact List.append_cancel_left this
      have := sep_split_unique sep name f q q2 hname (Subfolders.names_no_sep rest hrw f hf) e
      exact hnames.1 (by rw [this]; exact hf)
    · intro p hp
      rcases List.mem_append.mp hp with hp | hp
      · exact c2 p hp
      · exact r2 p hp
    · intro p hp
      rcases List.mem_append.mp hp with hp | hp
      · obtain ⟨q, hq⟩ := c3 p hp
        exact ⟨name, by simp [Subfolders.names], q, hq⟩
      · obtain ⟨f, hf, q, hq⟩ := r3 p hp
        exact ⟨f, by simp [Subfolders.names, hf], q, hq⟩

theorem getCamera_stable (nat : SessionNative) (self : Camera) (h : self.camera ≠ none) :
    (self.getCamera nat).err = none ∧ (self.getCamera nat).self = self := by
  cases hc : self.camera with
  | none => exact absurd hc h
  | some cam => simp [getCamera_cached nat self cam hc]

theorem ListDirectoryRecursive_served (nat : ListingNative)
    (hnf : GP_OK ≤ nat.list_new_folders) (hni : GP_OK ≤ nat.list_new_files) (t : Folder) :
    ∀ (d : GoString) (fuel : Nat) (self : Camera), HasSuffix d [sep] = true →
      (self.getCamera nat.session).err = none → t.served nat d → t.wellNamed →
      t.height < fuel →
      self.ListDirectoryRecursive nat fuel d
        = some { value := t.expand d, err := none, self := (self.getCamera nat.session).self } := by
  induction t using Folder.rec (motive_2 := fun s =>
      ∀ (d : GoString) (fuel : Nat) (self : Camera) (acc tail : List GoString),
        HasSuffix d [sep] = true → self.camera ≠ none → s.served nat d → s.wellNamed →
        s.height ≤ fuel →
        recursiveLoop (Camera.ListDirectoryRecursive nat fuel)
            (s.names.map (fun f => d ++ f ++ [sep]) ++ tail) self acc
          = recursiveLoop (Camera.ListDirectoryRecursive nat fuel) tail self
              (acc ++ s.expand d)) with
  | mk folders files ih =>
    intro d fuel self hd hcam hs hw hfuel
    simp only [Folder.served] at hs
    obtain ⟨s1, s2, s3, s4, s5⟩ := hs
    have hw' := hw
    simp only [Folder.wellNamed] at hw'
    obtain ⟨hfiles, -, -, hsub⟩ := hw'
    simp only [Folder.height] at hfuel
    cases fuel with
    | zero => exact absurd hfuel (Nat.not_lt_zero _)
    | succ fuel =>
      have hn := normalize_of_suffix d hd
      have hl := ListDirectory_ok nat self d folders.names files hcam hnf
        (by rw [hn]; exact s1) (by rw [hn]; exact s2) hni (by rw [hn]; exact s3)
        (by rw [hn]; exact s4)
      rw [hn] at hl
      rw [Camera.ListDirectoryRecursive, hl]
      simp only
      rw [ih d fuel _ [] _ hd (getCamera_sets_camera _ _) s5 hsub (Nat.lt_succ_iff.mp hfuel)]
      rw [recursiveLoop_files]
      · simp [Folder.expand]
      · intro i hi
        obtain ⟨g, hg, rfl⟩ := List.mem_map.mp hi
        exact HasSuffix_append_file d g (hfiles g hg).1 (hfiles g hg).2
  | nil => simp [Subfolders.names, Subfolders.expand]
  | cons name content rest ihc ihr =>
    rename_i d fuel self acc tail hd hcam hs hw hfuel
    simp only [Subfolders.served] at hs
    simp only [Subfolders.wellNamed] at hw
    simp only [Subfolders.height, max_le_iff] at hfuel
    have hitem : HasSuffix (d ++ name ++ [sep]) [sep] = true := (HasSuffix_sep_iff _).2 ⟨_, rfl⟩
    obtain ⟨he, hself⟩ := getCamera_stable nat.session self hcam
    have hrec := ihc (d ++ name ++ [sep]) fuel self hitem he hs.1 hw.2.1 hfuel.1
    rw [hself] at hrec
    simp only [Subfolders.names, List.map_cons, List.cons_append, Subfolders.expand]
    rw [recursiveLoop, hitem, if_pos rfl, hrec]
    simp only
    rw [ihr d fuel self _ tail hd hcam hs.2 hw.2.2 hfuel.2, List.append_assoc]

theorem ListDirectory_normalize (nat : ListingNative) (self : Camera) (dir : GoString) :
    self.ListDirectory nat dir = self.ListDirectory nat (normalize dir) := by
  unfold Camera.ListDirectory
  simp only [normalize_eq, normalize_of_suffix _ (HasSuffix_normalize dir)]

/-- C6: when the session is acquired and every native listing call succeeds, with `folders` and
`files` the names the native lists hold for the normalised path `d`, `ListDirectory dir`
returns no error and exactly `d ++ f ++ "/"` for each folder `f`, in order, followed by
`d ++ g` for each file `g`, in order; `d` is `dir` when it ends with `/` and `dir ++ "/"`
otherwise. -/
theorem ListDirectory_folders_then_files (nat : ListingNative) (self : Camera) (dir : GoString)
    (folders files : List GoString)
    (hcam : (self.getCamera nat.session).err = none)
    (hnf : GP_OK ≤ nat.list_new_folders)
    (hlf : GP_OK ≤ (nat.folder_list_folders (CString (normalize dir))).1)
    (hfo : (nat.folder_list_folders (CString (normalize dir))).2 = okList folders)
    (hni : GP_OK ≤ nat.list_new_files)
    (hli : GP_OK ≤ (nat.folder_list_files (CString (normalize dir))).1)
    (hfi : (nat.folder_list_files (CString (normalize dir))).2 = okList files) :
    (self.ListDirectory nat dir).err = none ∧
    (self.ListDirectory nat dir).value
      = folders.map (fun f => normalize dir ++ f ++ [sep])
        ++ files.map (fun g => normalize dir ++ g) ∧
    normalize dir = (if dir.getLast? = some sep then dir else dir ++ [sep]) := by
  rw [ListDirectory_ok nat self dir folders files hcam hnf hlf hfo hni hli hfi]
  refine ⟨rfl, rfl, ?_⟩
  unfold normalize
  by_cases h : HasSuffix dir [sep] = true
  · obtain ⟨a, rfl⟩ := (HasSuffix_sep_iff _).1 h
    simp [h]
  · have h2 : dir.getLast? ≠ some sep := by
      intro hl
      apply h
      rw [HasSuffix_sep_iff]
      obtain ⟨hne, hlast⟩ := List.mem_getLast?_eq_getLast hl
      exact ⟨dir.dropLast, by rw [hlast]; exact (List.dropLast_append_getLast hne).symm⟩
    simp [h, h2]

/-- Witness for C6: the root of the sample device, given without its trailing separator. -/
theorem ListDirectory_folders_then_files_witness :
    (freshCamera.ListDirectory sampleDevice (str "")).err = none ∧
    (freshCamera.ListDirectory sampleDevice (str "")).value
      = [str "/DCIM/", str "/readme.txt"] :=
  have h := ListDirectory_folders_then_files sampleDevice freshCamera (str "")
    [str "DCIM"] [str "readme.txt"] (by decide) (by decide) (by decide) (by decide)
    (by decide) (by decide) (by decide)
  ⟨h.1, h.2.1.trans (by decide)⟩

/-- C7: for a device folder tree whose names are path components and whose listings all
succeed, `ListDirectoryRecursive dir` returns, for every depth bound above the height of the
tree, without error exactly the manual recursion over the listings (each folder entry replaced
in place by the expansion of that folder, each file entry kept); the result has no duplicates
and no entry that ends with `/`. -/
theorem ListDirectoryRecursive_expands (nat : ListingNative) (self : Camera) (dir : GoString)
    (t : Folder) (fuel : Nat)
    (hcam : (self.getCamera nat.session).err = none)
    (hnf : GP_OK ≤ nat.list_new_folders) (hni : GP_OK ≤ nat.list_new_files)
    (hs : t.served nat (normalize dir)) (hw : t.wellNamed) (hfuel : t.height < fuel) :
    ∃ r, self.ListDirectoryRecursive nat fuel dir = some r ∧ r.err = none ∧
      r.value = t.expand (normalize dir) ∧ r.value.Nodup ∧
      ∀ p ∈ r.value, HasSuffix p [sep] = false := by
  have key := ListDirectoryRecursive_served nat hnf hni t (normalize dir) fuel self
    (HasSuffix_normalize dir) hcam hs hw hfuel
  have hsame : self.ListDirectoryRecursive nat fuel dir
      = self.ListDirectoryRecursive nat fuel (normalize dir) := by
    cases fuel with
    | zero => rfl
    | succ fuel => rw [Camera.ListDirectoryRecursive, Camera.ListDirectoryRecursive,
        ListDirectory_normalize]
  obtain ⟨e1, e2, -⟩ := expand_shape t (normalize dir) hw
  exact ⟨_, hsame.trans key, rfl, rfl, e1, e2⟩

/-- Witness for C7: the sample device listed from its root. -/
theorem ListDirectoryRecursive_expands_witness :
    ∃ r, freshCamera.ListDirectoryRecursive sampleDevice 2 (str "/") = some r ∧ r.err = none ∧
      r.value = sampleTree.expand (normalize (str "/")) ∧ r.value.Nodup ∧
      ∀ p ∈ r.value, HasSuffix p [sep] = false :=
  ListDirectoryRecursive_expands sampleDevice freshCamera (str "/") sampleTree 2
    (by decide) (by decide) (by decide)
    (by simp only [sampleTree, Folder.served, Subfolders.served, Subfolders.names]; decide)
    (by simp only [sampleTree, Folder.wellNamed, Subfolders.wellNamed, Subfolders.names]; decide)
    (by decide)

end Gophoto
